import Mathlib

/-!
# af_packet dissector and response crafter (`src/af_packet/util-afpacket.c`)

A shallow embedding of `afpacket_acquire`, `filter_ip_address`,
`exchange_for_respond_pkt` and `ReCalculateChecksum`.

* The packet buffer `p->pkt` is a map from byte offsets to bytes; the header
  pointers `p->ethh`, `p->ip4h`, `p->tcph` and `p->payload` are offsets into
  it (`none` is `NULL`).
* 16-bit fields are loaded and stored in host byte order, little-endian as on
  the x86 Linux hosts the AF_PACKET socket code targets; `ntohs` swaps.
* The two checksum helpers `IPV4CalculateChecksum` and `TCPCalculateChecksum`
  live in `util-tools.h`, which is not part of the sources: the dissector is
  parameterised by an `Engine` that supplies them.
-/

set_option maxRecDepth 8192

namespace AfPacket

/-! ## Bytes and the packet buffer -/

/-- One octet (`uint8_t`). -/
abbrev Byte := Fin 256

/-- The memory reachable from `p->pkt`, indexed by byte offset. -/
abbrev Buf := Nat → Byte

/-- The memory seen through a pointer `m + off`. -/
def view (m : Buf) (off : Nat) : Buf := fun k => m (off + k)

/-- Load of a `uint16_t` in host (little-endian) byte order. -/
def ld16 (m : Buf) (a : Nat) : Nat := (m a).val + 256 * (m (a + 1)).val

/-- Store of a `uint16_t` in host (little-endian) byte order. -/
def st16 (m : Buf) (a : Nat) (v : Nat) : Buf := fun i =>
  if i = a then ⟨v % 256, Nat.mod_lt _ (by decide)⟩
  else if i = a + 1 then ⟨v / 256 % 256, Nat.mod_lt _ (by decide)⟩
  else m i

/-- Store of a single byte. -/
def st8 (m : Buf) (a : Nat) (v : Byte) : Buf := fun i => if i = a then v else m i

/-- The libc `ntohs` on a little-endian host: swap the two bytes. -/
def ntohs (x : Nat) : Nat := (x % 256) * 256 + x / 256 % 256

/-- The libc `memcpy(dst, src, n)`, where `src` is the memory seen through the
source pointer before the copy. -/
def memcpy (m : Buf) (dst : Nat) (src : Buf) (n : Nat) : Buf := fun a =>
  if dst ≤ a ∧ a < dst + n then src (a - dst) else m a

/-- The first `n` bytes of a buffer, as a frame on the wire. -/
def frameOf (m : Buf) (n : Nat) : List Byte := (List.range n).map m

/-! ## Constants and header macros of the absent `util-afpacket.h` -/

/-- Modelled from the spec: `ETHERNET_HEADER_LEN`, "Ethernet header length (14)";
the constant is declared in the absent header. -/
def ETHERNET_HEADER_LEN : Nat := 14

/-- Modelled from the spec: `ETHERNET_TYPE_IP`, "IPv4 = 0x0800"; the constant is
declared in the absent header. -/
def ETHERNET_TYPE_IP : Nat := 0x0800

/-- Modelled from the spec: `IPV4_HEADER_LEN`, "minimum (20 bytes, i.e., 5 words)";
the constant is declared in the absent header. -/
def IPV4_HEADER_LEN : Nat := 20

/-- Modelled from the spec: `TCP_HEADER_LEN`, "TCP minimum header length
(20 bytes)"; the constant is declared in the absent header. -/
def TCP_HEADER_LEN : Nat := 20

/-- Modelled from the spec: `IPPROTO_TCP`, "protocol byte = TCP (6)". -/
def IPPROTO_TCP : Nat := 6

/-- Modelled from the spec: `HTTP_PORT`, the target port of the selection filter,
"filter configured for port 80"; the constant is declared in the absent header. -/
def HTTP_PORT : Nat := 80

/-- The address `inet_addr("239.255.255.250")`, as its four bytes in memory. -/
def excludedAddr : List Byte := [239, 255, 255, 250]

/-- Field `ether_dst` of `EtherHdr` (offset 0), its six bytes. -/
def ether_dst (m : Buf) (ethh : Nat) : List Byte :=
  [m ethh, m (ethh + 1), m (ethh + 2), m (ethh + 3), m (ethh + 4), m (ethh + 5)]

/-- Field `ether_src` of `EtherHdr` (offset 6), its six bytes. -/
def ether_src (m : Buf) (ethh : Nat) : List Byte :=
  [m (ethh + 6), m (ethh + 7), m (ethh + 8), m (ethh + 9), m (ethh + 10), m (ethh + 11)]

/-- Field `ether_type` of `EtherHdr` (RFC 894 layout: offset 12), host order. -/
def ether_type (m : Buf) (ethh : Nat) : Nat := ld16 m (ethh + 12)

/-- Modelled from the spec: macro `IP_GET_RAW_VER(pkt)`, the version nibble of
the "version/header-length" byte; the macro is declared in the absent header. -/
def IP_GET_RAW_VER (m : Buf) (pkt : Nat) : Nat := ((m pkt).val &&& 0xf0) >>> 4

/-- Modelled from the spec: macro `IPV4_GET_RAW_HLEN(ip4h)`, the "header-length
field (in 32-bit words)"; the macro is declared in the absent header. -/
def IPV4_GET_RAW_HLEN (m : Buf) (ip4h : Nat) : Nat := (m ip4h).val &&& 0x0f

/-- Modelled from the spec: macro `IPV4_GET_HLEN(p)`, the IPv4 header length in
bytes; the macro is declared in the absent header. -/
def IPV4_GET_HLEN (m : Buf) (ip4h : Nat) : Nat := IPV4_GET_RAW_HLEN m ip4h <<< 2

/-- Modelled from the spec: macro `IPV4_GET_IPLEN(p)`, the IPv4 "total length"
(RFC 791: offset 2, network order); the macro is declared in the absent header. -/
def IPV4_GET_IPLEN (m : Buf) (ip4h : Nat) : Nat := ntohs (ld16 m (ip4h + 2))

/-- Field `ip_proto` of `IP4Hdr` (RFC 791: offset 9). -/
def ip_proto (m : Buf) (ip4h : Nat) : Nat := (m (ip4h + 9)).val

/-- Field `ip_csum` of `IP4Hdr` (RFC 791: offset 10), host order. -/
def ip_csum (m : Buf) (ip4h : Nat) : Nat := ld16 m (ip4h + 10)

/-- Field `s_ip_src` of `IP4Hdr` (RFC 791: offset 12), its four bytes. -/
def s_ip_src (m : Buf) (ip4h : Nat) : List Byte :=
  [m (ip4h + 12), m (ip4h + 13), m (ip4h + 14), m (ip4h + 15)]

/-- Field `s_ip_dst` of `IP4Hdr` (RFC 791: offset 16), its four bytes. -/
def s_ip_dst (m : Buf) (ip4h : Nat) : List Byte :=
  [m (ip4h + 16), m (ip4h + 17), m (ip4h + 18), m (ip4h + 19)]

/-- Field `th_sport` of `TCPHdr` (RFC 793: offset 0), host order. -/
def th_sport (m : Buf) (tcph : Nat) : Nat := ld16 m tcph

/-- Field `th_dport` of `TCPHdr` (RFC 793: offset 2), host order. -/
def th_dport (m : Buf) (tcph : Nat) : Nat := ld16 m (tcph + 2)

/-- Field `th_flags` of `TCPHdr` (RFC 793: offset 13). -/
def th_flags (m : Buf) (tcph : Nat) : Byte := m (tcph + 13)

/-- Field `th_sum` of `TCPHdr` (RFC 793: offset 16), host order. -/
def th_sum (m : Buf) (tcph : Nat) : Nat := ld16 m (tcph + 16)

/-- Modelled from the spec: macro `TCP_GET_OFFSET(p)`, the TCP "data-offset (in
32-bit words)", high nibble of byte 12 (RFC 793); the macro is declared in the
absent header. -/
def TCP_GET_OFFSET (m : Buf) (tcph : Nat) : Nat := ((m (tcph + 12)).val &&& 0xf0) >>> 4

/-- Modelled from the spec: macro `TCP_GET_HLEN(p)`, "tcp_header_len from the
data-offset field", in bytes; the macro is declared in the absent header. -/
def TCP_GET_HLEN (m : Buf) (tcph : Nat) : Nat := TCP_GET_OFFSET m tcph <<< 2

/-! ## The checksum helpers, the packet and the return codes -/

/-- The two checksum helpers of the absent `util-tools.h`, each returning a
`uint16_t`. `IPV4CalculateChecksum pkt hlen` receives the memory at `p->ip4h`
and the raw header length; `TCPCalculateChecksum shdr pkt tlen` receives the
memory at `p->ip4h->s_ip_addrs`, the memory at `p->tcph` and the segment
length. -/
structure Engine where
  IPV4CalculateChecksum : Buf → Nat → Nat
  TCPCalculateChecksum : Buf → Buf → Nat → Nat

/-- The `Packet` of the absent header: the buffer and the header views the
functions of this file read and write. -/
structure Packet where
  pkt : Buf
  ethh : Option Nat
  ip4h : Option Nat
  tcph : Option Nat
  payload : Option Nat
  payload_len : Nat

/-- Return value of `afpacket_acquire`. Modelled from the spec: `PKT_ERROR` and
`PKT_PASS` are constants of the absent header; the spec's disposition codes are
distinguishable, so they are constructors apart from a returned `fromlen`. -/
inductive Ret where
  | PKT_ERROR : Ret
  | PKT_PASS : Ret
  | fromlen (n : Int) : Ret
  deriving DecidableEq, Repr

/-- The frame is accepted: `afpacket_acquire` returned a positive `fromlen`. -/
def Ret.isAccept : Ret → Bool
  | Ret.fromlen n => decide (0 < n)
  | _ => false

/-- The call `recv(instance->fd, pkt, 2000, MSG_TRUNC)`: `none` is a failed
receive (-1); a frame of `n` bytes returns `n` (with `MSG_TRUNC` the real
length, also past 2000) and overwrites the first `min n 2000` bytes of the
buffer, the rest keeps its old contents. -/
def recv (pkt : Buf) (wire : Option (List Byte)) : Int × Buf :=
  match wire with
  | none => (-1, pkt)
  | some l => ((l.length : Int), fun a => if a < min l.length 2000 then l.getD a 0 else pkt a)

/-- Function `filter_ip_address` (lines 500-513): 0 when the four bytes are
equal (`memcmp`), -1 otherwise. -/
def filter_ip_address (addr1 : List Byte) (addr2 : List Byte) : Int :=
  if addr1 = addr2 then 0 else -1

/-- Function `afpacket_acquire` (lines 269-363), with the packet as left at each
return. -/
def afpacket_acquire (E : Engine) (p : Packet) (wire : Option (List Byte)) : Ret × Packet :=
  let fromlen : Int := (recv p.pkt wire).1
  let m : Buf := (recv p.pkt wire).2
  let p0 : Packet := { p with pkt := m }
  if 0 < fromlen then
    let p1 : Packet := { p0 with ethh := some 0 }
    if ntohs (ether_type m 0) ≠ ETHERNET_TYPE_IP then (Ret.PKT_ERROR, p1) else
    let pkt := ETHERNET_HEADER_LEN
    if IP_GET_RAW_VER m pkt ≠ 4 then (Ret.PKT_ERROR, p1) else
    let p2 : Packet := { p1 with ip4h := some pkt }
    if IPV4_GET_HLEN m pkt < IPV4_HEADER_LEN then (Ret.PKT_ERROR, p2) else
    if IPV4_GET_IPLEN m pkt < IPV4_GET_HLEN m pkt then (Ret.PKT_ERROR, p2) else
    if fromlen < (IPV4_GET_IPLEN m pkt : Int) then (Ret.PKT_ERROR, p2) else
    let len : Nat := (IPV4_GET_IPLEN m pkt - IPV4_GET_HLEN m pkt) % 256
    if len < TCP_HEADER_LEN then (Ret.PKT_ERROR, p2) else
    let ip_csum_calc : Nat :=
      E.IPV4CalculateChecksum (view m pkt) (IPV4_GET_RAW_HLEN m pkt) % 65536
    if ip_csum m pkt ≠ ip_csum_calc then (Ret.PKT_ERROR, p2) else
    if ip_proto m pkt ≠ IPPROTO_TCP then (Ret.PKT_ERROR, p2) else
    let tcp := pkt + IPV4_GET_HLEN m pkt
    let p3 : Packet := { p2 with tcph := some tcp }
    let hlen : Nat := TCP_GET_HLEN m tcp % 256
    if len < hlen then (Ret.PKT_ERROR, p3) else
    if ntohs (th_dport m tcp) ≠ HTTP_PORT ∧ ntohs (th_sport m tcp) ≠ HTTP_PORT then
      (Ret.PKT_PASS, p3) else
    if filter_ip_address (s_ip_src m pkt) excludedAddr = 0 then (Ret.PKT_PASS, p3) else
    if filter_ip_address (s_ip_dst m pkt) excludedAddr = 0 then (Ret.PKT_PASS, p3) else
    let p4 : Packet := { p3 with payload := some (tcp + hlen), payload_len := len - hlen }
    if 0 < p4.payload_len then (Ret.PKT_PASS, p4) else
    let tcp_csum : Nat :=
      E.TCPCalculateChecksum (view m (pkt + 12)) (view m tcp)
        (p4.payload_len + TCP_GET_HLEN m tcp) % 65536
    if th_sum m tcp ≠ tcp_csum then (Ret.PKT_ERROR, p4) else
    (Ret.fromlen fromlen, p4)
  else (Ret.fromlen fromlen, p0)

/-- Function `exchange_for_respond_pkt` (lines 386-413); `none` when one of the
header pointers it dereferences is `NULL`. -/
def exchange_for_respond_pkt (p : Packet) (flag : Byte) : Option Packet :=
  match p.ethh, p.ip4h, p.tcph with
  | some e, some i, some t =>
    -- Swap layer 2 Mac info.
    let ether_tmp : Buf := memcpy (fun _ => 0) 0 (view p.pkt e) 6
    let m1 := memcpy p.pkt e (view p.pkt (e + 6)) 6
    let m2 := memcpy m1 (e + 6) ether_tmp 6
    -- Swap layer 3 ip info.
    let ip_tmp : Buf := memcpy (fun _ => 0) 0 (view m2 (i + 12)) 4
    let m3 := memcpy m2 (i + 12) (view m2 (i + 16)) 4
    let m4 := memcpy m3 (i + 16) ip_tmp 4
    -- Swap layer 4 port info.
    let port_tmp := th_sport m4 t
    let m5 := st16 m4 t (th_dport m4 t)
    let m6 := st16 m5 (t + 2) port_tmp
    -- Rset ACK/SYN/FIN flags
    let m7 := if flag ≠ 0 then st8 (st8 m6 (t + 13) 0) (t + 13) (0 ||| flag) else m6
    some { p with pkt := m7 }
  | _, _, _ => none

/-- Function `ReCalculateChecksum` (lines 415-431), returning the packet it
leaves. Modelled from the spec: the macros `PKT_IS_IPV4(p)` and `PKT_IS_TCP(p)`
of the absent header test that the IPv4, respectively TCP, view is set. -/
def ReCalculateChecksum (E : Engine) (p : Packet) : Packet :=
  match p.ip4h with
  | some i =>
    let m1 : Buf :=
      match p.tcph with
      | some t =>
        let z := st16 p.pkt (t + 16) 0
        st16 z (t + 16)
          (E.TCPCalculateChecksum (view z (i + 12)) (view z t) (p.payload_len + TCP_GET_HLEN z t)
            % 65536)
      | none => p.pkt
    let z := st16 m1 (i + 10) 0
    { p with pkt := st16 z (i + 10) (E.IPV4CalculateChecksum (view z i) (IPV4_GET_RAW_HLEN z i) % 65536) }
  | none => p

/-! ## The Checksum Engine of the specification (section 4.1) -/

/-- Modelled from the spec: "the one's-complement sum of 16-bit words over
`bytes[0..length)`, padding an odd trailing byte with zero" (host-order words);
the summing loop lives in the absent `util-tools.h`. -/
def sumWords : List Byte → Nat
  | [] => 0
  | [b] => b.val
  | b0 :: b1 :: rest => (b0.val + 256 * b1.val) + sumWords rest

/-- Modelled from the spec: "folding carries until the accumulator fits 16
bits"; each round adds the high half to the low half, and `fuel` rounds are
allowed (two are enough below 2^32). -/
def foldCarries : Nat → Nat → Nat
  | 0, s => s
  | fuel + 1, s => if s < 65536 then s else foldCarries fuel (s % 65536 + s / 65536)

/-- Modelled from the spec: `ip_checksum(bytes, length)`, the complement of the
folded sum over `bytes[0..length)`; the function lives in the absent
`util-tools.h`. -/
def ip_checksum (bytes : Buf) (length : Nat) : Nat :=
  65535 - foldCarries 32 (sumWords (frameOf bytes length)) % 65536

/-- Modelled from the spec: `tcp_checksum(src_addr, dst_addr, segment_bytes,
segment_length)`, which "prepends a 12-byte IPv4 pseudo-header (source address,
destination address, zero byte, protocol = 6, segment length in network order)
to the same summing algorithm"; the function lives in the absent `util-tools.h`. -/
def tcp_checksum (src_addr dst_addr : List Byte) (segment_bytes : Buf) (segment_length : Nat) :
    Nat :=
  65535 - foldCarries 32 (sumWords (src_addr ++ dst_addr ++
    [0, 6, ⟨segment_length / 256 % 256, Nat.mod_lt _ (by decide)⟩,
      ⟨segment_length % 256, Nat.mod_lt _ (by decide)⟩] ++
    frameOf segment_bytes segment_length)) % 65536

/-- Modelled from the spec: the Checksum Engine of section 4.1 with the checksum
field itself read as zero, the value a sender writes ("recomputing after zeroing
the field reproduces the original field value", section 8); the helpers live in
the absent `util-tools.h`. -/
def skipEngine : Engine where
  IPV4CalculateChecksum := fun pkt hlen => ip_checksum (st16 pkt 10 0) (4 * hlen)
  TCPCalculateChecksum := fun shdr pkt tlen =>
    tcp_checksum (frameOf shdr 4) (frameOf (view shdr 4) 4) (st16 pkt 16 0) tlen

/-- An engine whose results do not depend on the checksum field being
verified: the IPv4 helper ignores header bytes 10 and 11, the TCP helper reads
only the eight address bytes behind `shdr` and ignores segment bytes 16 and 17. -/
def Engine.SkipsField (E : Engine) : Prop :=
  (∀ (m1 m2 : Buf) (n : Nat), (∀ k, k ≠ 10 → k ≠ 11 → m1 k = m2 k) →
      E.IPV4CalculateChecksum m1 n = E.IPV4CalculateChecksum m2 n) ∧
  (∀ (s1 s2 m1 m2 : Buf) (n : Nat), (∀ k, k < 8 → s1 k = s2 k) →
      (∀ k, k ≠ 16 → k ≠ 17 → m1 k = m2 k) →
      E.TCPCalculateChecksum s1 m1 n = E.TCPCalculateChecksum s2 m2 n)

/-! ## Concrete frames -/

/-- A packet whose buffer is all zero and whose views are unset. -/
def emptyPacket : Packet :=
  { pkt := fun _ => 0, ethh := none, ip4h := none, tcph := none, payload := none,
    payload_len := 0 }

/-- The 54-byte Ethernet + IPv4 (20 bytes) + TCP (20 bytes) SYN frame from
192.168.1.10:12345 to 192.168.1.20:80, with the checksums a sender writes. -/
def synFrame : List Byte :=
  [0, 17, 34, 51, 68, 85, 102, 119, 136, 153, 170, 187, 8, 0,
   69, 0, 0, 40, 0, 1, 64, 0, 64, 6, 183, 96, 192, 168, 1, 10, 192, 168, 1, 20,
   48, 57, 0, 80, 0, 0, 0, 1, 0, 0, 0, 0, 80, 2, 114, 16, 137, 217, 0, 0]

/-! ## The dissector's checks, as predicates on the received buffer -/

/-- The Ethernet and IPv4 checks of `afpacket_acquire` (lines 277-312) pass on
the received buffer `m` with receive count `fromlen`: positive count, ethertype,
version, header length, total length, captured length, 8-bit segment length and
IPv4 checksum. -/
def PassesIPv4Checks (E : Engine) (fromlen : Int) (m : Buf) : Prop :=
  0 < fromlen ∧ ntohs (ether_type m 0) = ETHERNET_TYPE_IP ∧ IP_GET_RAW_VER m 14 = 4 ∧
  IPV4_HEADER_LEN ≤ IPV4_GET_HLEN m 14 ∧ IPV4_GET_HLEN m 14 ≤ IPV4_GET_IPLEN m 14 ∧
  (IPV4_GET_IPLEN m 14 : Int) ≤ fromlen ∧
  TCP_HEADER_LEN ≤ (IPV4_GET_IPLEN m 14 - IPV4_GET_HLEN m 14) % 256 ∧
  ip_csum m 14 = E.IPV4CalculateChecksum (view m 14) (IPV4_GET_RAW_HLEN m 14) % 65536

instance (E : Engine) (fromlen : Int) (m : Buf) : Decidable (PassesIPv4Checks E fromlen m) := by
  unfold PassesIPv4Checks; infer_instance

/-- The protocol check and the TCP-header-length check of `afpacket_acquire`
(lines 314-324) pass on the received buffer `m`. -/
def PassesTcpHeaderChecks (m : Buf) : Prop :=
  ip_proto m 14 = IPPROTO_TCP ∧
  TCP_GET_HLEN m (14 + IPV4_GET_HLEN m 14) % 256 ≤
    (IPV4_GET_IPLEN m 14 - IPV4_GET_HLEN m 14) % 256

instance (m : Buf) : Decidable (PassesTcpHeaderChecks m) := by
  unfold PassesTcpHeaderChecks; infer_instance

/-- The selection filter of `afpacket_acquire` (lines 327-341) lets the frame
through: one of the ports is `HTTP_PORT` and neither address is
239.255.255.250. -/
def Selected (m : Buf) : Prop :=
  (ntohs (th_dport m (14 + IPV4_GET_HLEN m 14)) = HTTP_PORT ∨
    ntohs (th_sport m (14 + IPV4_GET_HLEN m 14)) = HTTP_PORT) ∧
  s_ip_src m 14 ≠ excludedAddr ∧ s_ip_dst m 14 ≠ excludedAddr

instance (m : Buf) : Decidable (Selected m) := by
  unfold Selected; infer_instance

/-- The packet `afpacket_acquire` leaves when it reaches the payload
computation: the three header views and the payload view set. -/
def dissected (p : Packet) (m : Buf) : Packet :=
  { p with
    pkt := m, ethh := some 0, ip4h := some 14, tcph := some (14 + IPV4_GET_HLEN m 14),
    payload := some (14 + IPV4_GET_HLEN m 14 + TCP_GET_HLEN m (14 + IPV4_GET_HLEN m 14) % 256),
    payload_len := (IPV4_GET_IPLEN m 14 - IPV4_GET_HLEN m 14) % 256 -
      TCP_GET_HLEN m (14 + IPV4_GET_HLEN m 14) % 256 }

/-- The SYN frame with protocol byte 17 (UDP) and the IPv4 checksum a sender
writes for it. -/
def udpFrame : List Byte :=
  [0, 17, 34, 51, 68, 85, 102, 119, 136, 153, 170, 187, 8, 0,
   69, 0, 0, 40, 0, 1, 64, 0, 64, 17, 183, 85, 192, 168, 1, 10, 192, 168, 1, 20,
   48, 57, 0, 80, 0, 0, 0, 1, 0, 0, 0, 0, 80, 2, 114, 16, 137, 217, 0, 0]

/-- The SYN frame sent to port 8080 instead of 80, checksums as a sender
writes them. -/
def otherPortFrame : List Byte :=
  [0, 17, 34, 51, 68, 85, 102, 119, 136, 153, 170, 187, 8, 0,
   69, 0, 0, 40, 0, 1, 64, 0, 64, 6, 183, 96, 192, 168, 1, 10, 192, 168, 1, 20,
   48, 57, 31, 144, 0, 0, 0, 1, 0, 0, 0, 0, 80, 2, 114, 16, 106, 153, 0, 0]

/-- A 310-byte frame: the SYN headers to port 80 followed by a 256-byte payload
of zeros, total length 296, checksums as a sender writes them over the whole
segment. -/
def payload256Frame : List Byte :=
  [0, 17, 34, 51, 68, 85, 102, 119, 136, 153, 170, 187, 8, 0,
   69, 0, 1, 40, 0, 1, 64, 0, 64, 6, 182, 96, 192, 168, 1, 10, 192, 168, 1, 20,
   48, 57, 0, 80, 0, 0, 0, 1, 0, 0, 0, 0, 80, 2, 114, 16, 136, 217, 0, 0] ++
  List.replicate 256 0

/-- A 295-byte frame: the SYN headers to port 8080 followed by a 241-byte
payload of zeros, total length 281 (segment length 261), checksums as a sender
writes them over the whole segment. -/
def otherPortPayloadFrame : List Byte :=
  [0, 17, 34, 51, 68, 85, 102, 119, 136, 153, 170, 187, 8, 0,
   69, 0, 1, 25, 0, 1, 64, 0, 64, 6, 182, 111, 192, 168, 1, 10, 192, 168, 1, 20,
   48, 57, 31, 144, 0, 0, 0, 1, 0, 0, 0, 0, 80, 2, 114, 16, 105, 168, 0, 0] ++
  List.replicate 241 0

/-- The 310-byte frame of `payload256Frame` with the TCP checksum field taken
over the 20 TCP header bytes alone (pseudo-header length 20) instead of the
276-byte segment. -/
def headerSumFrame : List Byte :=
  [0, 17, 34, 51, 68, 85, 102, 119, 136, 153, 170, 187, 8, 0,
   69, 0, 1, 40, 0, 1, 64, 0, 64, 6, 182, 96, 192, 168, 1, 10, 192, 168, 1, 20,
   48, 57, 0, 80, 0, 0, 0, 1, 0, 0, 0, 0, 80, 2, 114, 16, 137, 217, 0, 0] ++
  List.replicate 256 0

/-! ## Descriptions of the crafted buffer, used in the proofs -/

/-- Exchange of the two adjacent `n`-byte fields at `d` and `d + n`. -/
def swap2 (m : Buf) (d n : Nat) : Buf := fun a =>
  if d ≤ a ∧ a < d + n then m (a + n)
  else if d + n ≤ a ∧ a < d + n + n then m (a - n)
  else m a

/-- The flag override of `exchange_for_respond_pkt` on the flags byte at
`t + 13`. -/
def setFlag (m : Buf) (t : Nat) (flag : Byte) : Buf :=
  if flag ≠ 0 then st8 m (t + 13) flag else m

/-- The buffer `exchange_for_respond_pkt` leaves, byte by byte, for header
views at `e`, `i` and `t`. -/
def exchangedBuf (m : Buf) (e i t : Nat) (flag : Byte) : Buf := fun a =>
  if e ≤ a ∧ a < e + 6 then m (a + 6)
  else if e + 6 ≤ a ∧ a < e + 12 then m (a - 6)
  else if i + 12 ≤ a ∧ a < i + 16 then m (a + 4)
  else if i + 16 ≤ a ∧ a < i + 20 then m (a - 4)
  else if a = t ∨ a = t + 1 then m (a + 2)
  else if a = t + 2 ∨ a = t + 3 then m (a - 2)
  else if a = t + 13 ∧ flag ≠ 0 then flag
  else m a

/-- The response round trip: `exchange_for_respond_pkt`, then
`ReCalculateChecksum`, then the first `n` bytes of the crafted buffer handed to
`afpacket_acquire` as a received frame. -/
def reacquire (E : Engine) (p : Packet) (flag : Byte) (n : Nat) : Option (Ret × Packet) :=
  (exchange_for_respond_pkt p flag).map fun q =>
    afpacket_acquire E (ReCalculateChecksum E q) (some (frameOf (ReCalculateChecksum E q).pkt n))

/-- The response sent and received elsewhere: `exchange_for_respond_pkt`, then
`ReCalculateChecksum`, then the first `n` bytes of the crafted buffer handed to
`afpacket_acquire` as a frame received into the packet `other`. -/
def reacquireInto (E : Engine) (p : Packet) (flag : Byte) (n : Nat) (other : Packet) :
    Option (Ret × Packet) :=
  (exchange_for_respond_pkt p flag).map fun q =>
    afpacket_acquire E other (some (frameOf (ReCalculateChecksum E q).pkt n))

/-- The packet left by two receives into the same `Packet`: first the 54-byte
SYN frame, then a 40-byte frame equal to its first 40 bytes. -/
def shortCapture : Ret × Packet :=
  afpacket_acquire skipEngine (afpacket_acquire skipEngine emptyPacket (some synFrame)).2
    (some (synFrame.take 40))

/-! ## Arithmetic of the header macros -/

theorem TCP_GET_OFFSET_le (m : Buf) (t : Nat) : TCP_GET_OFFSET m t ≤ 15 := by
  unfold TCP_GET_OFFSET
  have h : (m (t + 12)).val &&& 0xf0 ≤ 0xf0 := Nat.and_le_right
  rw [Nat.shiftRight_eq_div_pow]
  omega

theorem TCP_GET_HLEN_eq (m : Buf) (t : Nat) : TCP_GET_HLEN m t = 4 * TCP_GET_OFFSET m t := by
  unfold TCP_GET_HLEN
  rw [Nat.shiftLeft_eq]
  omega

theorem TCP_GET_HLEN_le (m : Buf) (t : Nat) : TCP_GET_HLEN m t ≤ 60 := by
  have h := TCP_GET_OFFSET_le m t
  rw [TCP_GET_HLEN_eq]
  omega

theorem IPV4_GET_HLEN_eq (m : Buf) (i : Nat) : IPV4_GET_HLEN m i = 4 * IPV4_GET_RAW_HLEN m i := by
  unfold IPV4_GET_HLEN
  rw [Nat.shiftLeft_eq]
  omega

theorem IPV4_GET_HLEN_le (m : Buf) (i : Nat) : IPV4_GET_HLEN m i ≤ 60 := by
  have h : (m i).val &&& 0x0f ≤ 0x0f := Nat.and_le_right
  rw [IPV4_GET_HLEN_eq]
  unfold IPV4_GET_RAW_HLEN
  omega

/-! ## Inversion of the dissector -/

/-- Once the Ethernet and IPv4 checks pass, a non-TCP protocol byte makes
`afpacket_acquire` return `PKT_ERROR` (line 315). -/
theorem acquire_of_non_tcp (E : Engine) (p : Packet) (wire : Option (List Byte))
    (h : PassesIPv4Checks E (recv p.pkt wire).1 (recv p.pkt wire).2)
    (hproto : ip_proto (recv p.pkt wire).2 14 ≠ IPPROTO_TCP) :
    (afpacket_acquire E p wire).1 = Ret.PKT_ERROR := by
  unfold afpacket_acquire
  generalize recv p.pkt wire = r at *
  obtain ⟨n, m⟩ := r
  obtain ⟨h1, h2, h3, h4, h5, h6, h7, h8⟩ := h
  dsimp only [ETHERNET_HEADER_LEN] at *
  simp only [h1, h2, h3, h8, hproto, not_lt.mpr h4, not_lt.mpr h5, not_lt.mpr h6, not_lt.mpr h7,
    if_true, if_false, ne_eq, not_true_eq_false, not_false_eq_true]

theorem filter_ip_address_eq_zero (a b : List Byte) : filter_ip_address a b = 0 ↔ a = b := by
  unfold filter_ip_address
  split <;> simp_all

/-- Once the Ethernet, IPv4 and TCP-header checks pass, `afpacket_acquire` is
decided by the selection filter, the payload length and the TCP checksum. -/
theorem acquire_of_checks (E : Engine) (p : Packet) (wire : Option (List Byte))
    (h : PassesIPv4Checks E (recv p.pkt wire).1 (recv p.pkt wire).2)
    (ht : PassesTcpHeaderChecks (recv p.pkt wire).2) :
    afpacket_acquire E p wire =
      if ¬ Selected (recv p.pkt wire).2 then
        (Ret.PKT_PASS, { dissected p (recv p.pkt wire).2 with
          payload := p.payload, payload_len := p.payload_len })
      else if 0 < (dissected p (recv p.pkt wire).2).payload_len then
        (Ret.PKT_PASS, dissected p (recv p.pkt wire).2)
      else if th_sum (recv p.pkt wire).2 (14 + IPV4_GET_HLEN (recv p.pkt wire).2 14) ≠
          E.TCPCalculateChecksum (view (recv p.pkt wire).2 (14 + 12))
            (view (recv p.pkt wire).2 (14 + IPV4_GET_HLEN (recv p.pkt wire).2 14))
            ((dissected p (recv p.pkt wire).2).payload_len +
              TCP_GET_HLEN (recv p.pkt wire).2 (14 + IPV4_GET_HLEN (recv p.pkt wire).2 14)) % 65536
        then (Ret.PKT_ERROR, dissected p (recv p.pkt wire).2)
      else (Ret.fromlen (recv p.pkt wire).1, dissected p (recv p.pkt wire).2) := by
  unfold afpacket_acquire
  generalize recv p.pkt wire = r at *
  obtain ⟨n, m⟩ := r
  obtain ⟨h1, h2, h3, h4, h5, h6, h7, h8⟩ := h
  obtain ⟨t1, t2⟩ := ht
  dsimp only [ETHERNET_HEADER_LEN, dissected] at *
  simp only [h1, h2, h3, h8, t1, not_lt.mpr h4, not_lt.mpr h5, not_lt.mpr h6, not_lt.mpr h7,
    not_lt.mpr t2, if_true, if_false, ne_eq, not_true_eq_false, not_false_eq_true]
  unfold Selected
  simp only [filter_ip_address_eq_zero]
  by_cases hd : ntohs (th_dport m (14 + IPV4_GET_HLEN m 14)) = HTTP_PORT <;>
    by_cases hs : ntohs (th_sport m (14 + IPV4_GET_HLEN m 14)) = HTTP_PORT <;>
    by_cases ha : s_ip_src m 14 = excludedAddr <;>
    by_cases hb : s_ip_dst m 14 = excludedAddr <;>
    simp only [hd, hs, ha, hb, if_true, if_false, ne_eq, not_true_eq_false, not_false_eq_true,
      and_self, and_true, and_false, true_and, false_and, or_self, or_true, or_false, true_or,
      false_or]

/-- An accepted frame passed every check of `afpacket_acquire`. -/
theorem acquire_accept_checks (E : Engine) (p : Packet) (wire : Option (List Byte))
    (h : (afpacket_acquire E p wire).1.isAccept = true) :
    PassesIPv4Checks E (recv p.pkt wire).1 (recv p.pkt wire).2 ∧
    PassesTcpHeaderChecks (recv p.pkt wire).2 ∧ Selected (recv p.pkt wire).2 ∧
    (dissected p (recv p.pkt wire).2).payload_len = 0 ∧
    th_sum (recv p.pkt wire).2 (14 + IPV4_GET_HLEN (recv p.pkt wire).2 14) =
      E.TCPCalculateChecksum (view (recv p.pkt wire).2 (14 + 12))
        (view (recv p.pkt wire).2 (14 + IPV4_GET_HLEN (recv p.pkt wire).2 14))
        ((dissected p (recv p.pkt wire).2).payload_len +
          TCP_GET_HLEN (recv p.pkt wire).2 (14 + IPV4_GET_HLEN (recv p.pkt wire).2 14)) % 65536 := by
  unfold afpacket_acquire at h
  generalize recv p.pkt wire = r at *
  obtain ⟨n, m⟩ := r
  dsimp only [ETHERNET_HEADER_LEN] at h
  unfold PassesIPv4Checks PassesTcpHeaderChecks Selected
  dsimp only [dissected]
  by_cases c1 : 0 < n
  swap
  · simp [c1, Ret.isAccept] at h
  by_cases c2 : ntohs (ether_type m 0) = ETHERNET_TYPE_IP
  swap
  · simp [c1, c2, Ret.isAccept] at h
  by_cases c3 : IP_GET_RAW_VER m 14 = 4
  swap
  · simp [c1, c2, c3, Ret.isAccept] at h
  by_cases c4 : IPV4_GET_HLEN m 14 < IPV4_HEADER_LEN
  · simp [c1, c2, c3, c4, Ret.isAccept] at h
  by_cases c5 : IPV4_GET_IPLEN m 14 < IPV4_GET_HLEN m 14
  · simp [c1, c2, c3, c4, c5, Ret.isAccept] at h
  by_cases c6 : n < (IPV4_GET_IPLEN m 14 : Int)
  · simp [c1, c2, c3, c4, c5, c6, Ret.isAccept] at h
  by_cases c7 : (IPV4_GET_IPLEN m 14 - IPV4_GET_HLEN m 14) % 256 < TCP_HEADER_LEN
  · simp [c1, c2, c3, c4, c5, c6, c7, Ret.isAccept] at h
  by_cases c8 : ip_csum m 14 =
      E.IPV4CalculateChecksum (view m 14) (IPV4_GET_RAW_HLEN m 14) % 65536
  swap
  · simp [c1, c2, c3, c4, c5, c6, c7, c8, Ret.isAccept] at h
  by_cases c9 : ip_proto m 14 = IPPROTO_TCP
  swap
  · simp [c1, c2, c3, c4, c5, c6, c7, c8, c9, Ret.isAccept] at h
  by_cases c10 : (IPV4_GET_IPLEN m 14 - IPV4_GET_HLEN m 14) % 256 <
      TCP_GET_HLEN m (14 + IPV4_GET_HLEN m 14) % 256
  · simp [c1, c2, c3, c4, c5, c6, c7, c8, c9, c10, Ret.isAccept] at h
  simp only [c1, c2, c3, c4, c5, c6, c7, c8, c9, c10, if_true, if_false, ne_eq,
    not_true_eq_false, not_false_eq_true, filter_ip_address_eq_zero] at h
  by_cases c11 : ¬ ntohs (th_dport m (14 + IPV4_GET_HLEN m 14)) = HTTP_PORT ∧
      ¬ ntohs (th_sport m (14 + IPV4_GET_HLEN m 14)) = HTTP_PORT
  · simp [c11, Ret.isAccept] at h
  by_cases c12 : s_ip_src m 14 = excludedAddr
  · simp [c11, c12, Ret.isAccept] at h
  by_cases c13 : s_ip_dst m 14 = excludedAddr
  · simp [c11, c12, c13, Ret.isAccept] at h
  by_cases c14 : 0 < (IPV4_GET_IPLEN m 14 - IPV4_GET_HLEN m 14) % 256 -
      TCP_GET_HLEN m (14 + IPV4_GET_HLEN m 14) % 256
  · simp [c11, c12, c13, c14, Ret.isAccept] at h
  by_cases c15 : th_sum m (14 + IPV4_GET_HLEN m 14) =
      E.TCPCalculateChecksum (view m (14 + 12)) (view m (14 + IPV4_GET_HLEN m 14))
        ((IPV4_GET_IPLEN m 14 - IPV4_GET_HLEN m 14) % 256 -
          TCP_GET_HLEN m (14 + IPV4_GET_HLEN m 14) % 256 +
          TCP_GET_HLEN m (14 + IPV4_GET_HLEN m 14)) % 65536
  swap
  · simp [c11, c12, c13, c14, c15, Ret.isAccept] at h
  refine ⟨⟨c1, c2, c3, not_lt.mp c4, not_lt.mp c5, not_lt.mp c6, not_lt.mp c7, c8⟩,
    ⟨c9, not_lt.mp c10⟩, ⟨?_, c12, c13⟩, Nat.eq_zero_of_not_pos c14, c15⟩
  by_contra hn
  exact c11 ⟨fun a => hn (Or.inl a), fun b => hn (Or.inr b)⟩

/-- An accepted frame is returned with its receive count and the dissected
packet. -/
theorem acquire_accept_eq (E : Engine) (p : Packet) (wire : Option (List Byte))
    (h : (afpacket_acquire E p wire).1.isAccept = true) :
    afpacket_acquire E p wire =
      (Ret.fromlen (recv p.pkt wire).1, dissected p (recv p.pkt wire).2) := by
  obtain ⟨h1, h2, h3, h4, h5⟩ := acquire_accept_checks E p wire h
  rw [acquire_of_checks E p wire h1 h2]
  simp only [h3, h4, h5, not_true_eq_false, if_false, lt_irrefl, ne_eq]

/-! ## The response crafter, byte by byte -/

theorem zero_lor (f : Byte) : (0 ||| f) = f := by
  apply Fin.ext
  show (0 ||| f.val) % 256 = f.val
  rw [Nat.zero_or]
  exact Nat.mod_eq_of_lt f.isLt

theorem st16_ld16 (m w : Buf) (a s : Nat) :
    st16 m a (ld16 w s) = fun k => if k = a then w s else if k = a + 1 then w (s + 1) else m k := by
  funext k
  unfold st16 ld16
  have h0 := (w s).isLt
  have h1 := (w (s + 1)).isLt
  split
  · apply Fin.ext
    show ((w s).val + 256 * (w (s + 1)).val) % 256 = (w s).val
    omega
  · split
    · apply Fin.ext
      show ((w s).val + 256 * (w (s + 1)).val) / 256 % 256 = (w (s + 1)).val
      omega
    · rfl

theorem memcpy_swap (m z : Buf) (d n : Nat) :
    memcpy (memcpy m d (view m (d + n)) n) (d + n) (memcpy z 0 (view m d) n) n = swap2 m d n := by
  funext a
  unfold memcpy view swap2
  split_ifs <;> first | rfl | omega | (congr 1; omega)

theorem swap2_lo (m : Buf) (d n a : Nat) (h1 : d ≤ a) (h2 : a < d + n) :
    swap2 m d n a = m (a + n) := by
  unfold swap2
  rw [if_pos ⟨h1, h2⟩]

theorem swap2_hi (m : Buf) (d n a : Nat) (h1 : d + n ≤ a) (h2 : a < d + n + n) :
    swap2 m d n a = m (a - n) := by
  unfold swap2
  rw [if_neg (by omega), if_pos ⟨h1, h2⟩]

theorem swap2_out (m : Buf) (d n a : Nat) (h : a < d ∨ d + n + n ≤ a) :
    swap2 m d n a = m a := by
  unfold swap2
  rw [if_neg (by omega), if_neg (by omega)]

theorem setFlag_out (m : Buf) (t : Nat) (flag : Byte) (a : Nat) (h : a ≠ t + 13) :
    setFlag m t flag a = m a := by
  unfold setFlag st8
  split
  · dsimp only
    rw [if_neg h]
  · rfl

theorem setFlag_at (m : Buf) (t : Nat) (flag : Byte) :
    setFlag m t flag (t + 13) = if flag ≠ 0 then flag else m (t + 13) := by
  unfold setFlag st8
  split
  · dsimp only
    rw [if_pos rfl]
  · rfl

theorem st16_swap (m : Buf) (t : Nat) :
    st16 (st16 m t (th_dport m t)) (t + 2) (th_sport m t) = swap2 m t 2 := by
  unfold th_sport th_dport
  rw [st16_ld16, st16_ld16]
  funext a
  dsimp only
  by_cases h0 : a = t
  · subst h0
    rw [swap2_lo _ _ _ _ (by omega) (by omega), if_neg (by omega), if_neg (by omega), if_pos rfl]
  by_cases h1 : a = t + 1
  · subst h1
    rw [swap2_lo _ _ _ _ (by omega) (by omega), if_neg (by omega), if_neg (by omega),
      if_neg (by omega), if_pos rfl]
  by_cases h2 : a = t + 2
  · subst h2
    rw [swap2_hi _ _ _ _ (by omega) (by omega), if_pos rfl]
    rfl
  by_cases h3 : a = t + 3
  · subst h3
    rw [swap2_hi _ _ _ _ (by omega) (by omega), if_neg (by omega), if_pos rfl]
    rfl
  · rw [swap2_out _ _ _ _ (by omega), if_neg h2, if_neg h3, if_neg h0, if_neg h1]

theorem exchange_eq (p : Packet) (flag : Byte) (e i t : Nat)
    (he : p.ethh = some e) (hi : p.ip4h = some i) (ht : p.tcph = some t) :
    exchange_for_respond_pkt p flag =
      some { p with pkt := setFlag (swap2 (swap2 (swap2 p.pkt e 6) (i + 12) 4) t 2) t flag } := by
  unfold exchange_for_respond_pkt
  rw [he, hi, ht]
  dsimp only
  rw [memcpy_swap, show i + 16 = i + 12 + 4 from rfl, memcpy_swap, st16_swap, zero_lor]
  unfold setFlag
  congr 2
  split
  · funext a
    unfold st8
    split <;> rfl
  · rfl

theorem exchangedBuf_eq (m : Buf) (flag : Byte) (e i t : Nat)
    (h1 : e + 12 ≤ i + 12) (h2 : i + 20 ≤ t) :
    setFlag (swap2 (swap2 (swap2 m e 6) (i + 12) 4) t 2) t flag = exchangedBuf m e i t flag := by
  funext a
  unfold exchangedBuf
  by_cases c1 : e ≤ a ∧ a < e + 6
  · rw [if_pos c1]
    simp (disch := omega) only [setFlag_out, swap2_out, swap2_lo]
  rw [if_neg c1]
  by_cases c2 : e + 6 ≤ a ∧ a < e + 12
  · rw [if_pos c2]
    simp (disch := omega) only [setFlag_out, swap2_out, swap2_hi]
  rw [if_neg c2]
  by_cases c3 : i + 12 ≤ a ∧ a < i + 16
  · rw [if_pos c3]
    simp (disch := omega) only [setFlag_out, swap2_out, swap2_lo]
  rw [if_neg c3]
  by_cases c4 : i + 16 ≤ a ∧ a < i + 20
  · rw [if_pos c4]
    simp (disch := omega) only [setFlag_out, swap2_out, swap2_hi]
  rw [if_neg c4]
  by_cases c5 : a = t ∨ a = t + 1
  · rw [if_pos c5]
    simp (disch := omega) only [setFlag_out, swap2_out, swap2_lo]
  rw [if_neg c5]
  by_cases c6 : a = t + 2 ∨ a = t + 3
  · rw [if_pos c6]
    simp (disch := omega) only [setFlag_out, swap2_out, swap2_hi]
  rw [if_neg c6]
  by_cases c7 : a = t + 13
  · subst c7
    rw [setFlag_at]
    simp (disch := omega) only [swap2_out]
    split <;> simp_all
  · rw [if_neg (by tauto)]
    simp (disch := omega) only [setFlag_out, swap2_out]

theorem ex_mac_lo (m : Buf) (e i t : Nat) (f : Byte) (a : Nat) (h1 : e ≤ a) (h2 : a < e + 6) :
    exchangedBuf m e i t f a = m (a + 6) := by
  unfold exchangedBuf
  rw [if_pos ⟨h1, h2⟩]

theorem ex_mac_hi (m : Buf) (e i t : Nat) (f : Byte) (a : Nat) (h1 : e + 6 ≤ a)
    (h2 : a < e + 12) : exchangedBuf m e i t f a = m (a - 6) := by
  unfold exchangedBuf
  rw [if_neg (by omega), if_pos ⟨h1, h2⟩]

theorem ex_ip_lo (m : Buf) (e i t : Nat) (f : Byte) (a : Nat) (hl : e ≤ i) (h1 : i + 12 ≤ a)
    (h2 : a < i + 16) : exchangedBuf m e i t f a = m (a + 4) := by
  unfold exchangedBuf
  rw [if_neg (by omega), if_neg (by omega), if_pos ⟨h1, h2⟩]

theorem ex_ip_hi (m : Buf) (e i t : Nat) (f : Byte) (a : Nat) (hl : e ≤ i) (h1 : i + 16 ≤ a)
    (h2 : a < i + 20) : exchangedBuf m e i t f a = m (a - 4) := by
  unfold exchangedBuf
  rw [if_neg (by omega), if_neg (by omega), if_neg (by omega), if_pos ⟨h1, h2⟩]

theorem ex_port_lo (m : Buf) (e i t : Nat) (f : Byte) (a : Nat) (hl : e ≤ i) (hl2 : i + 20 ≤ t)
    (h1 : t ≤ a) (h2 : a < t + 2) : exchangedBuf m e i t f a = m (a + 2) := by
  unfold exchangedBuf
  rw [if_neg (by omega), if_neg (by omega), if_neg (by omega), if_neg (by omega),
    if_pos (by omega)]

theorem ex_port_hi (m : Buf) (e i t : Nat) (f : Byte) (a : Nat) (hl : e ≤ i) (hl2 : i + 20 ≤ t)
    (h1 : t + 2 ≤ a) (h2 : a < t + 4) : exchangedBuf m e i t f a = m (a - 2) := by
  unfold exchangedBuf
  rw [if_neg (by omega), if_neg (by omega), if_neg (by omega), if_neg (by omega),
    if_neg (by omega), if_pos (by omega)]

theorem ex_flag (m : Buf) (e i t : Nat) (f : Byte) (hl : e ≤ i) (hl2 : i + 20 ≤ t) :
    exchangedBuf m e i t f (t + 13) = if f ≠ 0 then f else m (t + 13) := by
  unfold exchangedBuf
  rw [if_neg (by omega), if_neg (by omega), if_neg (by omega), if_neg (by omega),
    if_neg (by omega), if_neg (by omega)]
  by_cases hf : f = 0
  · rw [if_neg (by simp [hf]), if_neg (by simp [hf])]
  · rw [if_pos ⟨rfl, hf⟩, if_pos hf]

theorem ex_out (m : Buf) (e i t : Nat) (f : Byte) (a : Nat)
    (h1 : a < e ∨ e + 12 ≤ a) (h2 : a < i + 12 ∨ i + 20 ≤ a) (h3 : a < t ∨ t + 4 ≤ a)
    (h4 : a ≠ t + 13) : exchangedBuf m e i t f a = m a := by
  unfold exchangedBuf
  rw [if_neg (by omega), if_neg (by omega), if_neg (by omega), if_neg (by omega),
    if_neg (by omega), if_neg (by omega), if_neg (by tauto)]

theorem exchangedBuf_twice (m : Buf) (f1 f2 : Byte) (e i t : Nat) (hl : e ≤ i)
    (hl2 : i + 20 ≤ t) (a : Nat) (ha : a ≠ t + 13) :
    exchangedBuf (exchangedBuf m e i t f1) e i t f2 a = m a := by
  by_cases c1 : e ≤ a ∧ a < e + 6
  · rw [ex_mac_lo _ _ _ _ _ _ c1.1 c1.2, ex_mac_hi _ _ _ _ _ _ (by omega) (by omega)]
    congr 1
  by_cases c2 : e + 6 ≤ a ∧ a < e + 12
  · rw [ex_mac_hi _ _ _ _ _ _ c2.1 c2.2, ex_mac_lo _ _ _ _ _ _ (by omega) (by omega)]
    congr 1
    omega
  by_cases c3 : i + 12 ≤ a ∧ a < i + 16
  · rw [ex_ip_lo _ _ _ _ _ _ hl c3.1 c3.2, ex_ip_hi _ _ _ _ _ _ hl (by omega) (by omega)]
    congr 1
  by_cases c4 : i + 16 ≤ a ∧ a < i + 20
  · rw [ex_ip_hi _ _ _ _ _ _ hl c4.1 c4.2, ex_ip_lo _ _ _ _ _ _ hl (by omega) (by omega)]
    congr 1
    omega
  by_cases c5 : t ≤ a ∧ a < t + 2
  · rw [ex_port_lo _ _ _ _ _ _ hl hl2 c5.1 c5.2,
      ex_port_hi _ _ _ _ _ _ hl hl2 (by omega) (by omega)]
    congr 1
  by_cases c6 : t + 2 ≤ a ∧ a < t + 4
  · rw [ex_port_hi _ _ _ _ _ _ hl hl2 c6.1 c6.2,
      ex_port_lo _ _ _ _ _ _ hl hl2 (by omega) (by omega)]
    congr 1
    omega
  · rw [ex_out _ _ _ _ _ _ (by omega) (by omega) (by omega) ha,
      ex_out _ _ _ _ _ _ (by omega) (by omega) (by omega) ha]

theorem exchangedBuf_twice_zero (m : Buf) (e i t : Nat) (hl : e ≤ i) (hl2 : i + 20 ≤ t) :
    exchangedBuf (exchangedBuf m e i t 0) e i t 0 = m := by
  funext a
  by_cases ha : a = t + 13
  · subst ha
    rw [ex_flag _ _ _ _ _ hl hl2, ex_flag _ _ _ _ _ hl hl2]
    simp
  · exact exchangedBuf_twice m 0 0 e i t hl hl2 a ha

theorem exchange_pkt (p : Packet) (flag : Byte) (e i t : Nat)
    (he : p.ethh = some e) (hi : p.ip4h = some i) (ht : p.tcph = some t)
    (hl : e ≤ i) (hl2 : i + 20 ≤ t) :
    exchange_for_respond_pkt p flag = some { p with pkt := exchangedBuf p.pkt e i t flag } := by
  rw [exchange_eq p flag e i t he hi ht, exchangedBuf_eq p.pkt flag e i t (by omega) hl2]

theorem st16_out (m : Buf) (b v a : Nat) (h1 : a ≠ b) (h2 : a ≠ b + 1) : st16 m b v a = m a := by
  unfold st16
  rw [if_neg h1, if_neg h2]

theorem st16_st16 (m : Buf) (b v w : Nat) : st16 (st16 m b v) b w = st16 m b w := by
  funext a
  unfold st16
  split
  · rfl
  · split <;> rfl

theorem ld16_st16 (m : Buf) (b v : Nat) : ld16 (st16 m b v) b = v % 65536 := by
  unfold ld16 st16
  rw [if_pos rfl, if_neg (by omega), if_pos rfl]
  show v % 256 + 256 * (v / 256 % 256) = v % 65536
  omega

theorem ld16_congr (m w : Buf) (a : Nat) (h1 : m a = w a) (h2 : m (a + 1) = w (a + 1)) :
    ld16 m a = ld16 w a := by
  unfold ld16
  rw [h1, h2]

theorem frameOf_getD (m : Buf) (n a : Nat) (h : a < n) : (frameOf m n).getD a 0 = m a := by
  unfold frameOf
  rw [List.getD_eq_getElem _ _ (by simpa using h)]
  simp

theorem recv_frameOf (m : Buf) (n : Nat) : recv m (some (frameOf m n)) = ((n : Int), m) := by
  unfold recv
  have hlen : (frameOf m n).length = n := by simp [frameOf]
  dsimp only
  rw [hlen]
  congr 1
  funext a
  split
  · exact frameOf_getD m n a (by omega)
  · rfl

/-- What `ReCalculateChecksum` leaves when both views are set and the engine
skips the checksum fields. -/
theorem recalc_spec (E : Engine) (hE : E.SkipsField) (q : Packet) (i t : Nat)
    (hi : q.ip4h = some i) (ht : q.tcph = some t) (hl2 : i + 20 ≤ t) :
    (∀ a, a ≠ i + 10 → a ≠ i + 11 → a ≠ t + 16 → a ≠ t + 17 →
      (ReCalculateChecksum E q).pkt a = q.pkt a) ∧
    ip_csum (ReCalculateChecksum E q).pkt i =
      E.IPV4CalculateChecksum (view (ReCalculateChecksum E q).pkt i)
        (IPV4_GET_RAW_HLEN (ReCalculateChecksum E q).pkt i) % 65536 ∧
    th_sum (ReCalculateChecksum E q).pkt t =
      E.TCPCalculateChecksum (view (ReCalculateChecksum E q).pkt (i + 12))
        (view (ReCalculateChecksum E q).pkt t)
        (q.payload_len + TCP_GET_HLEN (ReCalculateChecksum E q).pkt t) % 65536 ∧
    (ReCalculateChecksum E q).ethh = q.ethh ∧ (ReCalculateChecksum E q).ip4h = q.ip4h ∧
    (ReCalculateChecksum E q).tcph = q.tcph ∧
    (ReCalculateChecksum E q).payload_len = q.payload_len := by
  have hform : ReCalculateChecksum E q = { q with pkt := (ReCalculateChecksum E q).pkt } := by
    unfold ReCalculateChecksum
    rw [hi, ht]
  refine ⟨?_, ?_, ?_, by rw [hform], by rw [hform], by rw [hform], by rw [hform]⟩
  all_goals
    unfold ReCalculateChecksum
    rw [hi, ht]
    dsimp only
    rw [st16_st16, st16_st16]
    generalize hct : E.TCPCalculateChecksum (view (st16 q.pkt (t + 16) 0) (i + 12))
      (view (st16 q.pkt (t + 16) 0) t)
      (q.payload_len + TCP_GET_HLEN (st16 q.pkt (t + 16) 0) t) % 65536 = ct
    generalize hci : E.IPV4CalculateChecksum (view (st16 (st16 q.pkt (t + 16) ct) (i + 10) 0) i)
      (IPV4_GET_RAW_HLEN (st16 (st16 q.pkt (t + 16) ct) (i + 10) 0) i) % 65536 = ci
  · intro a h1 h2 h3 h4
    rw [st16_out _ _ _ _ h1 h2, st16_out _ _ _ _ h3 h4]
  · unfold ip_csum
    have hmod : ci % 65536 = ci := by rw [← hci, Nat.mod_mod]
    rw [ld16_st16, hmod]
    refine hci.symm.trans ?_
    congr 1
    have hraw : IPV4_GET_RAW_HLEN (st16 (st16 q.pkt (t + 16) ct) (i + 10) 0) i =
        IPV4_GET_RAW_HLEN (st16 (st16 q.pkt (t + 16) ct) (i + 10) ci) i := by
      unfold IPV4_GET_RAW_HLEN
      simp (disch := omega) only [st16_out]
    rw [hraw]
    apply hE.1
    intro k h1 h2
    unfold view
    simp (disch := omega) only [st16_out]
  · unfold th_sum
    have hmod : ct % 65536 = ct := by rw [← hct, Nat.mod_mod]
    have h16 : ld16 (st16 (st16 q.pkt (t + 16) ct) (i + 10) ci) (t + 16) =
        ld16 (st16 q.pkt (t + 16) ct) (t + 16) :=
      ld16_congr _ _ _ (st16_out _ _ _ _ (by omega) (by omega))
        (st16_out _ _ _ _ (by omega) (by omega))
    rw [h16, ld16_st16, hmod]
    refine hct.symm.trans ?_
    congr 1
    have hhl : TCP_GET_HLEN (st16 q.pkt (t + 16) 0) t =
        TCP_GET_HLEN (st16 (st16 q.pkt (t + 16) ct) (i + 10) ci) t := by
      unfold TCP_GET_HLEN TCP_GET_OFFSET
      simp (disch := omega) only [st16_out]
    rw [hhl]
    apply hE.2
    · intro k hk
      unfold view
      simp (disch := omega) only [st16_out]
    · intro k h1 h2
      unfold view
      simp (disch := omega) only [st16_out]

/-- The engine that reads the checksum field as zero skips the field. -/
theorem skipEngine_skips : skipEngine.SkipsField := by
  constructor
  · intro m1 m2 n h
    show ip_checksum (st16 m1 10 0) (4 * n) = ip_checksum (st16 m2 10 0) (4 * n)
    congr 1
    funext a
    unfold st16
    split
    · rfl
    · split
      · rfl
      · exact h a (by omega) (by omega)
  · intro s1 s2 m1 m2 n hs h
    show tcp_checksum (frameOf s1 4) (frameOf (view s1 4) 4) (st16 m1 16 0) n =
      tcp_checksum (frameOf s2 4) (frameOf (view s2 4) 4) (st16 m2 16 0) n
    have e1 : frameOf s1 4 = frameOf s2 4 := by
      simp [frameOf, List.range_succ, hs]
    have e2 : frameOf (view s1 4) 4 = frameOf (view s2 4) 4 := by
      simp [frameOf, List.range_succ, view, hs]
    have e3 : st16 m1 16 0 = st16 m2 16 0 := by
      funext a
      unfold st16
      split
      · rfl
      · split
        · rfl
        · exact h a (by omega) (by omega)
    rw [e1, e2, e3]
/-- A frame that passes every check, has no payload left in the 8-bit segment
length and carries the TCP checksum the helper computes is accepted. -/
theorem acquire_accept_of_checks (E : Engine) (p : Packet) (wire : Option (List Byte))
    (n : Int) (m : Buf) (hr : recv p.pkt wire = (n, m))
    (h1 : PassesIPv4Checks E n m) (h2 : PassesTcpHeaderChecks m) (h3 : Selected m)
    (h4 : (IPV4_GET_IPLEN m 14 - IPV4_GET_HLEN m 14) % 256 -
      TCP_GET_HLEN m (14 + IPV4_GET_HLEN m 14) % 256 = 0)
    (h5 : th_sum m (14 + IPV4_GET_HLEN m 14) =
      E.TCPCalculateChecksum (view m (14 + 12)) (view m (14 + IPV4_GET_HLEN m 14))
        (0 + TCP_GET_HLEN m (14 + IPV4_GET_HLEN m 14)) % 65536) :
    afpacket_acquire E p wire = (Ret.fromlen n, dissected p m) := by
  have hn : n = (recv p.pkt wire).1 := by rw [hr]
  have hm : m = (recv p.pkt wire).2 := by rw [hr]
  rw [hn, hm] at h1
  rw [hm] at h2
  rw [acquire_of_checks E p wire h1 h2, ← hn, ← hm]
  have hpl : (dissected p m).payload_len = 0 := h4
  rw [hpl]
  simp only [h3, h5, not_true_eq_false, if_false, lt_irrefl, ne_eq]


/-! ## The claims about `afpacket_acquire` -/

/-- C1: a received frame that is captured up to its IPv4 total length, has
ethertype 0x0800, version 4, an IPv4 header of at least 20 bytes, a total length
equal to the IPv4 header plus a TCP header of at least 20 bytes (no payload),
protocol 6, one port equal to `HTTP_PORT`, neither address 239.255.255.250, and
IPv4 and TCP checksum fields equal to the values the checksum helpers compute, is
accepted: `afpacket_acquire` returns the positive receive count and leaves the
Ethernet, IPv4 and TCP views set with `payload_len = 0`. -/
theorem acquire_accepts_handshake (E : Engine) (p : Packet) (wire : Option (List Byte))
    (n : Int) (m : Buf) (hr : recv p.pkt wire = (n, m))
    (hcap : (IPV4_GET_IPLEN m 14 : Int) ≤ n)
    (heth : ntohs (ether_type m 0) = 0x0800)
    (hver : IP_GET_RAW_VER m 14 = 4)
    (hhlen : 20 ≤ IPV4_GET_HLEN m 14)
    (hseg : IPV4_GET_IPLEN m 14 = IPV4_GET_HLEN m 14 + TCP_GET_HLEN m (14 + IPV4_GET_HLEN m 14))
    (htcp : 20 ≤ TCP_GET_HLEN m (14 + IPV4_GET_HLEN m 14))
    (hproto : ip_proto m 14 = 6)
    (hport : ntohs (th_sport m (14 + IPV4_GET_HLEN m 14)) = HTTP_PORT ∨
      ntohs (th_dport m (14 + IPV4_GET_HLEN m 14)) = HTTP_PORT)
    (hsrc : s_ip_src m 14 ≠ excludedAddr) (hdst : s_ip_dst m 14 ≠ excludedAddr)
    (hipck : ip_csum m 14 =
      E.IPV4CalculateChecksum (view m 14) (IPV4_GET_RAW_HLEN m 14) % 65536)
    (htcpck : th_sum m (14 + IPV4_GET_HLEN m 14) =
      E.TCPCalculateChecksum (view m 26) (view m (14 + IPV4_GET_HLEN m 14))
        (TCP_GET_HLEN m (14 + IPV4_GET_HLEN m 14)) % 65536) :
    0 < n ∧
    afpacket_acquire E p wire =
      (Ret.fromlen n,
        { p with
          pkt := m, ethh := some 0, ip4h := some 14, tcph := some (14 + IPV4_GET_HLEN m 14),
          payload := some (14 + IPV4_GET_HLEN m 14 + TCP_GET_HLEN m (14 + IPV4_GET_HLEN m 14)),
          payload_len := 0 }) := by
  have hn : n = (recv p.pkt wire).1 := by rw [hr]
  have hm : m = (recv p.pkt wire).2 := by rw [hr]
  have hle := TCP_GET_HLEN_le m (14 + IPV4_GET_HLEN m 14)
  have hmod : TCP_GET_HLEN m (14 + IPV4_GET_HLEN m 14) % 256 =
      TCP_GET_HLEN m (14 + IPV4_GET_HLEN m 14) := Nat.mod_eq_of_lt (by omega)
  have hlen8 : (IPV4_GET_IPLEN m 14 - IPV4_GET_HLEN m 14) % 256 =
      TCP_GET_HLEN m (14 + IPV4_GET_HLEN m 14) := by
    rw [hseg, Nat.add_sub_cancel_left]
    exact hmod
  have hpos : 0 < n := by
    have : (0 : Int) < (IPV4_GET_IPLEN m 14 : Int) := by omega
    omega
  have h1 : PassesIPv4Checks E n m := by
    refine ⟨hpos, heth, hver, hhlen, by omega, hcap, ?_, hipck⟩
    rw [hlen8]
    exact htcp
  have h2 : PassesTcpHeaderChecks m := by
    refine ⟨hproto, ?_⟩
    rw [hlen8, hmod]
  have h3 : Selected m := ⟨hport.symm, hsrc, hdst⟩
  refine ⟨hpos, ?_⟩
  rw [hn, hm] at h1
  rw [hm] at h2
  rw [acquire_of_checks E p wire h1 h2]
  rw [← hn, ← hm]
  have hpl : (dissected p m).payload_len = 0 := by
    dsimp only [dissected]
    rw [hlen8, hmod]
    exact Nat.sub_self _
  have hck : th_sum m (14 + IPV4_GET_HLEN m 14) =
      E.TCPCalculateChecksum (view m (14 + 12)) (view m (14 + IPV4_GET_HLEN m 14))
        ((dissected p m).payload_len + TCP_GET_HLEN m (14 + IPV4_GET_HLEN m 14)) % 65536 := by
    rw [hpl, Nat.zero_add]
    exact htcpck
  simp only [h3, hpl, hck, not_true_eq_false, if_false, lt_irrefl, ne_eq]
  dsimp only [dissected]
  rw [hlen8, hmod, Nat.sub_self]

/-- Witness for C1: the 54-byte SYN frame to port 80 meets every hypothesis and
is accepted with receive count 54. -/
theorem acquire_accepts_handshake_witness :
    0 < (54 : Int) ∧
    afpacket_acquire skipEngine emptyPacket (some synFrame) =
      (Ret.fromlen 54,
        { emptyPacket with
          pkt := (recv emptyPacket.pkt (some synFrame)).2, ethh := some 0, ip4h := some 14,
          tcph := some (14 + IPV4_GET_HLEN (recv emptyPacket.pkt (some synFrame)).2 14),
          payload := some (14 + IPV4_GET_HLEN (recv emptyPacket.pkt (some synFrame)).2 14 +
            TCP_GET_HLEN (recv emptyPacket.pkt (some synFrame)).2
              (14 + IPV4_GET_HLEN (recv emptyPacket.pkt (some synFrame)).2 14)),
          payload_len := 0 }) :=
  acquire_accepts_handshake skipEngine emptyPacket (some synFrame) 54
    (recv emptyPacket.pkt (some synFrame)).2 rfl (by decide) (by decide) (by decide) (by decide)
    (by decide) (by decide) (by decide) (by decide) (by decide) (by decide) (by decide)
    (by decide)

/-- C2, as the code behaves: a received frame that passes the Ethernet and IPv4
checks and whose protocol byte is not 6 makes `afpacket_acquire` return
`PKT_ERROR` (line 315), not `PKT_PASS`, whatever follows the IPv4 header. -/
theorem acquire_non_tcp_returns_error (E : Engine) (p : Packet) (wire : Option (List Byte))
    (n : Int) (m : Buf) (hr : recv p.pkt wire = (n, m))
    (h : PassesIPv4Checks E n m) (hproto : ip_proto m 14 ≠ IPPROTO_TCP) :
    (afpacket_acquire E p wire).1 = Ret.PKT_ERROR ∧
    (afpacket_acquire E p wire).1 ≠ Ret.PKT_PASS := by
  have hn : n = (recv p.pkt wire).1 := by rw [hr]
  have hm : m = (recv p.pkt wire).2 := by rw [hr]
  rw [hn, hm] at h
  rw [hm] at hproto
  rw [acquire_of_non_tcp E p wire h hproto]
  exact ⟨rfl, by decide⟩

/-- Witness for C2: the UDP frame passes the Ethernet and IPv4 checks and is
returned as `PKT_ERROR`. -/
theorem acquire_non_tcp_returns_error_witness :
    PassesIPv4Checks skipEngine 54 (recv emptyPacket.pkt (some udpFrame)).2 ∧
    ip_proto (recv emptyPacket.pkt (some udpFrame)).2 14 = 17 ∧
    (afpacket_acquire skipEngine emptyPacket (some udpFrame)).1 = Ret.PKT_ERROR ∧
    (afpacket_acquire skipEngine emptyPacket (some udpFrame)).1 ≠ Ret.PKT_PASS :=
  ⟨by decide, by decide,
    acquire_non_tcp_returns_error skipEngine emptyPacket (some udpFrame) 54
      (recv emptyPacket.pkt (some udpFrame)).2 rfl (by decide) (by decide)⟩

/-- C4: a received frame whose positive receive count is smaller than the total
length declared in its IPv4 header makes `afpacket_acquire` return `PKT_ERROR`,
never an accept, whatever the other bytes and the checksum helpers are. -/
theorem acquire_truncated_is_error (E : Engine) (p : Packet) (wire : Option (List Byte))
    (n : Int) (m : Buf) (hr : recv p.pkt wire = (n, m))
    (hpos : 0 < n) (htrunc : n < (IPV4_GET_IPLEN m 14 : Int)) :
    (afpacket_acquire E p wire).1 = Ret.PKT_ERROR ∧
    (afpacket_acquire E p wire).1.isAccept = false := by
  have key : (afpacket_acquire E p wire).1 = Ret.PKT_ERROR := by
    unfold afpacket_acquire
    rw [hr]
    dsimp only [ETHERNET_HEADER_LEN]
    rw [if_pos hpos]
    by_cases c2 : ntohs (ether_type m 0) ≠ ETHERNET_TYPE_IP
    · rw [if_pos c2]
    rw [if_neg c2]
    by_cases c3 : IP_GET_RAW_VER m 14 ≠ 4
    · rw [if_pos c3]
    rw [if_neg c3]
    by_cases c4 : IPV4_GET_HLEN m 14 < IPV4_HEADER_LEN
    · rw [if_pos c4]
    rw [if_neg c4]
    by_cases c5 : IPV4_GET_IPLEN m 14 < IPV4_GET_HLEN m 14
    · rw [if_pos c5]
    rw [if_neg c5, if_pos htrunc]
  rw [key]
  exact ⟨rfl, rfl⟩

/-- Witness for C4: the first 30 bytes of the SYN frame, whose IPv4 header
declares 40 bytes, are returned as `PKT_ERROR`. -/
theorem acquire_truncated_is_error_witness :
    (afpacket_acquire skipEngine emptyPacket (some (synFrame.take 30))).1 = Ret.PKT_ERROR ∧
    (afpacket_acquire skipEngine emptyPacket (some (synFrame.take 30))).1.isAccept = false :=
  acquire_truncated_is_error skipEngine emptyPacket (some (synFrame.take 30)) 30
    (recv emptyPacket.pkt (some (synFrame.take 30))).2 rfl (by decide) (by decide)

/-- C3, as the code behaves: the segment length is kept modulo 256 (`uint8_t
len`), so a selected frame that passes the checks and whose 8-bit segment length
equals its TCP header length is never returned as `PKT_PASS`, although its TCP
payload length (total length - IPv4 header length - TCP header length) may be a
positive multiple of 256: the code goes on to the TCP checksum and returns
`PKT_ERROR` or accepts. -/
theorem acquire_wrapped_payload_not_pass (E : Engine) (p : Packet)
    (wire : Option (List Byte)) (n : Int) (m : Buf) (hr : recv p.pkt wire = (n, m))
    (h : PassesIPv4Checks E n m) (ht : PassesTcpHeaderChecks m) (hs : Selected m)
    (hwrap : (IPV4_GET_IPLEN m 14 - IPV4_GET_HLEN m 14) % 256 =
      TCP_GET_HLEN m (14 + IPV4_GET_HLEN m 14)) :
    (afpacket_acquire E p wire).1 ≠ Ret.PKT_PASS := by
  have hn : n = (recv p.pkt wire).1 := by rw [hr]
  have hm : m = (recv p.pkt wire).2 := by rw [hr]
  have h1 := h
  have h2 := ht
  rw [hn, hm] at h1
  rw [hm] at h2
  rw [acquire_of_checks E p wire h1 h2, ← hm, ← hn]
  have hle := TCP_GET_HLEN_le m (14 + IPV4_GET_HLEN m 14)
  have hpl : (dissected p m).payload_len = 0 := by
    dsimp only [dissected]
    rw [hwrap]
    omega
  simp only [hs, hpl, not_true_eq_false, if_false, lt_irrefl]
  split <;> simp

/-- Witness for C3: the 310-byte frame with a 256-byte TCP payload passes the
checks and the filter, its payload length is 256, and `afpacket_acquire` returns
`PKT_ERROR` (the TCP checksum is taken over the 20 header bytes only). -/
theorem acquire_wrapped_payload_not_pass_witness :
    IPV4_GET_IPLEN (recv emptyPacket.pkt (some payload256Frame)).2 14 -
      IPV4_GET_HLEN (recv emptyPacket.pkt (some payload256Frame)).2 14 -
      TCP_GET_HLEN (recv emptyPacket.pkt (some payload256Frame)).2 34 = 256 ∧
    (afpacket_acquire skipEngine emptyPacket (some payload256Frame)).1 = Ret.PKT_ERROR ∧
    (afpacket_acquire skipEngine emptyPacket (some payload256Frame)).1 ≠ Ret.PKT_PASS :=
  ⟨by decide, by decide,
    acquire_wrapped_payload_not_pass skipEngine emptyPacket (some payload256Frame) 310
      (recv emptyPacket.pkt (some payload256Frame)).2 rfl (by decide) (by decide) (by decide)
      (by decide)⟩

/-- The selection filter behind the code's own guards: when the Ethernet, IPv4
and TCP-header-length guards pass as the code evaluates them (segment length
modulo 256), a port mismatch or an excluded address returns `PKT_PASS`; and a
frame is accepted only if one of its ports equals `HTTP_PORT` and neither
address is excluded. -/
theorem acquire_filter_behind_guards (E : Engine) (p : Packet) (wire : Option (List Byte))
    (n : Int) (m : Buf) (hr : recv p.pkt wire = (n, m)) :
    (PassesIPv4Checks E n m → PassesTcpHeaderChecks m →
      ((ntohs (th_dport m (14 + IPV4_GET_HLEN m 14)) ≠ HTTP_PORT ∧
          ntohs (th_sport m (14 + IPV4_GET_HLEN m 14)) ≠ HTTP_PORT) ∨
        s_ip_src m 14 = excludedAddr ∨ s_ip_dst m 14 = excludedAddr) →
      (afpacket_acquire E p wire).1 = Ret.PKT_PASS) ∧
    ((afpacket_acquire E p wire).1.isAccept = true →
      (ntohs (th_dport m (14 + IPV4_GET_HLEN m 14)) = HTTP_PORT ∨
          ntohs (th_sport m (14 + IPV4_GET_HLEN m 14)) = HTTP_PORT) ∧
        s_ip_src m 14 ≠ excludedAddr ∧ s_ip_dst m 14 ≠ excludedAddr) := by
  have hn : n = (recv p.pkt wire).1 := by rw [hr]
  have hm : m = (recv p.pkt wire).2 := by rw [hr]
  constructor
  · intro h1 h2 hrej
    have hns : ¬ Selected m := by
      rintro ⟨hp, hs, hd⟩
      rcases hrej with ⟨a, b⟩ | c | c
      · exact hp.elim a b
      · exact hs c
      · exact hd c
    rw [hn, hm] at h1
    rw [hm] at h2 hns
    rw [acquire_of_checks E p wire h1 h2, if_pos hns]
  · intro hacc
    have h3 := (acquire_accept_checks E p wire hacc).2.2.1
    rw [← hm] at h3
    exact h3

/-- C8, as the code behaves: the segment length is kept modulo 256 (`uint8_t
len`), so a received frame that passes the Ethernet and IPv4 guards up to the
captured-length guard and whose segment length (total length - IPv4 header
length) leaves a residue below 20 modulo 256 is returned as `PKT_ERROR` at lines
302-304, before the selection filter is reached: a frame with neither port equal to
`HTTP_PORT` is then not returned as `PKT_PASS`, whatever its real segment
length, ports and addresses are. -/
theorem acquire_wrapped_segment_is_error (E : Engine) (p : Packet)
    (wire : Option (List Byte)) (n : Int) (m : Buf) (hr : recv p.pkt wire = (n, m))
    (hpos : 0 < n) (heth : ntohs (ether_type m 0) = ETHERNET_TYPE_IP)
    (hver : IP_GET_RAW_VER m 14 = 4) (hhlen : IPV4_HEADER_LEN ≤ IPV4_GET_HLEN m 14)
    (hlen : IPV4_GET_HLEN m 14 ≤ IPV4_GET_IPLEN m 14)
    (hcap : (IPV4_GET_IPLEN m 14 : Int) ≤ n)
    (hwrap : (IPV4_GET_IPLEN m 14 - IPV4_GET_HLEN m 14) % 256 < TCP_HEADER_LEN) :
    (afpacket_acquire E p wire).1 = Ret.PKT_ERROR ∧
    (afpacket_acquire E p wire).1 ≠ Ret.PKT_PASS := by
  have key : (afpacket_acquire E p wire).1 = Ret.PKT_ERROR := by
    unfold afpacket_acquire
    rw [hr]
    dsimp only [ETHERNET_HEADER_LEN]
    rw [if_pos hpos, if_neg (not_not_intro heth), if_neg (not_not_intro hver),
      if_neg (not_lt.mpr hhlen), if_neg (not_lt.mpr hlen), if_neg (not_lt.mpr hcap),
      if_pos hwrap]
  rw [key]
  exact ⟨rfl, by decide⟩

/-- Witness for C8: the 295-byte frame to port 8080 with a 241-byte payload has
ethertype 0x0800, version 4, a 20-byte IPv4 header with the checksum a sender
writes, protocol 6, a 20-byte TCP header inside a segment of 261 bytes, and
neither port equal to `HTTP_PORT`; `afpacket_acquire` returns `PKT_ERROR`. -/
theorem acquire_wrapped_segment_is_error_witness :
    IPV4_GET_IPLEN (recv emptyPacket.pkt (some otherPortPayloadFrame)).2 14 -
      IPV4_GET_HLEN (recv emptyPacket.pkt (some otherPortPayloadFrame)).2 14 = 261 ∧
    TCP_GET_HLEN (recv emptyPacket.pkt (some otherPortPayloadFrame)).2 34 = 20 ∧
    ip_proto (recv emptyPacket.pkt (some otherPortPayloadFrame)).2 14 = IPPROTO_TCP ∧
    ip_csum (recv emptyPacket.pkt (some otherPortPayloadFrame)).2 14 =
      skipEngine.IPV4CalculateChecksum
        (view (recv emptyPacket.pkt (some otherPortPayloadFrame)).2 14)
        (IPV4_GET_RAW_HLEN (recv emptyPacket.pkt (some otherPortPayloadFrame)).2 14) % 65536 ∧
    ntohs (th_dport (recv emptyPacket.pkt (some otherPortPayloadFrame)).2 34) = 8080 ∧
    ntohs (th_sport (recv emptyPacket.pkt (some otherPortPayloadFrame)).2 34) = 12345 ∧
    (afpacket_acquire skipEngine emptyPacket (some otherPortPayloadFrame)).1 = Ret.PKT_ERROR ∧
    (afpacket_acquire skipEngine emptyPacket (some otherPortPayloadFrame)).1 ≠ Ret.PKT_PASS :=
  ⟨by decide, by decide, by decide, by decide, by decide, by decide,
    acquire_wrapped_segment_is_error skipEngine emptyPacket (some otherPortPayloadFrame) 295
      (recv emptyPacket.pkt (some otherPortPayloadFrame)).2 rfl (by decide) (by decide)
      (by decide) (by decide) (by decide) (by decide) (by decide)⟩

/-- C9: every frame `afpacket_acquire` accepts satisfies the header invariants:
IPv4 header length at least 5 words, total length at least the header length,
total length at most the receive count, TCP data offset at least 5 words, and
IPv4 payload length (total length - IPv4 header length) at least the TCP header
length. -/
theorem accepted_frame_invariants (E : Engine) (p : Packet) (wire : Option (List Byte))
    (n : Int) (m : Buf) (hr : recv p.pkt wire = (n, m))
    (hacc : (afpacket_acquire E p wire).1.isAccept = true) :
    5 ≤ IPV4_GET_RAW_HLEN m 14 ∧
    IPV4_GET_HLEN m 14 ≤ IPV4_GET_IPLEN m 14 ∧
    (IPV4_GET_IPLEN m 14 : Int) ≤ n ∧
    5 ≤ TCP_GET_OFFSET m (14 + IPV4_GET_HLEN m 14) ∧
    TCP_GET_HLEN m (14 + IPV4_GET_HLEN m 14) ≤ IPV4_GET_IPLEN m 14 - IPV4_GET_HLEN m 14 := by
  have hn : n = (recv p.pkt wire).1 := by rw [hr]
  have hm : m = (recv p.pkt wire).2 := by rw [hr]
  obtain ⟨⟨-, -, -, h4, h5, h6, h7, -⟩, ⟨-, t2⟩, -, hpl, -⟩ := acquire_accept_checks E p wire hacc
  rw [← hm] at h4 h5 h6 h7 t2 hpl
  rw [← hn] at h6
  dsimp only [dissected] at hpl
  have hle := TCP_GET_HLEN_le m (14 + IPV4_GET_HLEN m 14)
  have e1 := TCP_GET_HLEN_eq m (14 + IPV4_GET_HLEN m 14)
  have e2 := IPV4_GET_HLEN_eq m 14
  have hmod : TCP_GET_HLEN m (14 + IPV4_GET_HLEN m 14) % 256 =
      TCP_GET_HLEN m (14 + IPV4_GET_HLEN m 14) := Nat.mod_eq_of_lt (by omega)
  rw [hmod] at t2 hpl
  have hmle := Nat.mod_le (IPV4_GET_IPLEN m 14 - IPV4_GET_HLEN m 14) 256
  unfold IPV4_HEADER_LEN at h4
  unfold TCP_HEADER_LEN at h7
  refine ⟨by omega, h5, h6, by omega, by omega⟩

/-- Witness for C9: the accepted 54-byte SYN frame. -/
theorem accepted_frame_invariants_witness :
    5 ≤ IPV4_GET_RAW_HLEN (recv emptyPacket.pkt (some synFrame)).2 14 ∧
    IPV4_GET_HLEN (recv emptyPacket.pkt (some synFrame)).2 14 ≤
      IPV4_GET_IPLEN (recv emptyPacket.pkt (some synFrame)).2 14 ∧
    (IPV4_GET_IPLEN (recv emptyPacket.pkt (some synFrame)).2 14 : Int) ≤ 54 ∧
    5 ≤ TCP_GET_OFFSET (recv emptyPacket.pkt (some synFrame)).2
      (14 + IPV4_GET_HLEN (recv emptyPacket.pkt (some synFrame)).2 14) ∧
    TCP_GET_HLEN (recv emptyPacket.pkt (some synFrame)).2
        (14 + IPV4_GET_HLEN (recv emptyPacket.pkt (some synFrame)).2 14) ≤
      IPV4_GET_IPLEN (recv emptyPacket.pkt (some synFrame)).2 14 -
        IPV4_GET_HLEN (recv emptyPacket.pkt (some synFrame)).2 14 :=
  accepted_frame_invariants skipEngine emptyPacket (some synFrame) 54
    (recv emptyPacket.pkt (some synFrame)).2 rfl (by decide)

/-- C10, as the code behaves: after the 54-byte SYN frame was received into the
packet buffer, a 40-byte frame (its first 40 bytes) is accepted with receive
count 40, which is below 14 + the IPv4 total length 40: the TCP header bytes at
offsets 40 to 53 that the dissector read are the stale bytes of the earlier
frame, as the buffer after the receive shows. -/
theorem acquire_accepts_short_capture :
    (afpacket_acquire skipEngine
        (afpacket_acquire skipEngine emptyPacket (some synFrame)).2
        (some (synFrame.take 40))).1 = Ret.fromlen 40 ∧
    IPV4_GET_IPLEN (recv (afpacket_acquire skipEngine emptyPacket (some synFrame)).2.pkt
        (some (synFrame.take 40))).2 14 = 40 ∧
    ¬ ((14 : Int) + 40 ≤ 40) ∧
    frameOf (view (recv emptyPacket.pkt (some (synFrame.take 40))).2 40) 14 =
      List.replicate 14 0 ∧
    frameOf (view (recv (afpacket_acquire skipEngine emptyPacket (some synFrame)).2.pkt
        (some (synFrame.take 40))).2 40) 14 = synFrame.drop 40 := by
  decide

/-! ## The claims about the response crafter -/

/-- C6: for a packet whose header views lie in order without overlap, as
`afpacket_acquire` sets them (Ethernet view not after the IPv4 view, the 20
fixed IPv4 header bytes before the TCP view), and every flag byte,
`exchange_for_respond_pkt` returns a packet whose Ethernet destination and
source, IPv4 source and destination and TCP source and destination port are
those of the input exchanged pairwise, whose flags byte is the flag when it is
nonzero and the old flags byte when it is zero, and whose other bytes and views
are unchanged. -/
theorem exchange_swaps_addressing (p : Packet) (flag : Byte) (e i t : Nat)
    (he : p.ethh = some e) (hi : p.ip4h = some i) (ht : p.tcph = some t)
    (hl : e ≤ i) (hl2 : i + 20 ≤ t) :
    ∃ q, exchange_for_respond_pkt p flag = some q ∧
      ether_dst q.pkt e = ether_src p.pkt e ∧ ether_src q.pkt e = ether_dst p.pkt e ∧
      s_ip_src q.pkt i = s_ip_dst p.pkt i ∧ s_ip_dst q.pkt i = s_ip_src p.pkt i ∧
      th_sport q.pkt t = th_dport p.pkt t ∧ th_dport q.pkt t = th_sport p.pkt t ∧
      th_flags q.pkt t = (if flag ≠ 0 then flag else th_flags p.pkt t) ∧
      (∀ a, (a < e ∨ e + 12 ≤ a) → (a < i + 12 ∨ i + 20 ≤ a) → (a < t ∨ t + 4 ≤ a) →
        a ≠ t + 13 → q.pkt a = p.pkt a) ∧
      q.ethh = p.ethh ∧ q.ip4h = p.ip4h ∧ q.tcph = p.tcph ∧ q.payload = p.payload ∧
      q.payload_len = p.payload_len := by
  refine ⟨_, exchange_pkt p flag e i t he hi ht hl hl2, ?_, ?_, ?_, ?_, ?_, ?_, ?_, ?_,
    rfl, rfl, rfl, rfl, rfl⟩
  · unfold ether_dst ether_src
    dsimp only
    simp (disch := omega) only [ex_mac_lo]
  · unfold ether_dst ether_src
    dsimp only
    simp (disch := omega) only [ex_mac_hi]
    rfl
  · unfold s_ip_src s_ip_dst
    dsimp only
    simp (disch := omega) only [ex_ip_lo]
  · unfold s_ip_src s_ip_dst
    dsimp only
    simp (disch := omega) only [ex_ip_hi]
    rfl
  · unfold th_sport th_dport ld16
    dsimp only
    simp (disch := omega) only [ex_port_lo]
  · unfold th_sport th_dport ld16
    dsimp only
    simp (disch := omega) only [ex_port_hi]
    rfl
  · unfold th_flags
    dsimp only
    rw [ex_flag _ _ _ _ _ hl hl2]
  · intro a h1 h2 h3 h4
    exact ex_out _ _ _ _ _ _ h1 h2 h3 h4

/-- Witness for C6: the dissected 54-byte SYN frame, answered with SYN|ACK. -/
theorem exchange_swaps_addressing_witness :
    ∃ q, exchange_for_respond_pkt (afpacket_acquire skipEngine emptyPacket (some synFrame)).2 18 =
        some q ∧
      ether_dst q.pkt 0 = [102, 119, 136, 153, 170, 187] ∧
      s_ip_src q.pkt 14 = [192, 168, 1, 20] ∧
      ntohs (th_sport q.pkt 34) = 80 ∧ th_flags q.pkt 34 = 18 := by
  obtain ⟨q, hq, h1, -, h3, -, h5, -, h7, -⟩ :=
    exchange_swaps_addressing (afpacket_acquire skipEngine emptyPacket (some synFrame)).2 18
      0 14 34 (by decide) (by decide) (by decide) (by decide) (by decide)
  refine ⟨q, hq, ?_, ?_, ?_, ?_⟩
  · rw [h1]; decide
  · rw [h3]; decide
  · rw [h5]; decide
  · rw [h7]; decide

/-- C7: for a packet whose header views lie in order without overlap and flag
values `f1`, `f2`, `exchange_for_respond_pkt` applied twice gives back the
Ethernet addresses, IPv4 addresses and TCP ports of the input, indeed every byte
but the flags byte; and when both flags are 0 the result is the input packet,
byte for byte. -/
theorem exchange_twice_restores (p : Packet) (f1 f2 : Byte) (e i t : Nat)
    (he : p.ethh = some e) (hi : p.ip4h = some i) (ht : p.tcph = some t)
    (hl : e ≤ i) (hl2 : i + 20 ≤ t) :
    ∃ q r, exchange_for_respond_pkt p f1 = some q ∧ exchange_for_respond_pkt q f2 = some r ∧
      ether_dst r.pkt e = ether_dst p.pkt e ∧ ether_src r.pkt e = ether_src p.pkt e ∧
      s_ip_src r.pkt i = s_ip_src p.pkt i ∧ s_ip_dst r.pkt i = s_ip_dst p.pkt i ∧
      th_sport r.pkt t = th_sport p.pkt t ∧ th_dport r.pkt t = th_dport p.pkt t ∧
      (∀ a, a ≠ t + 13 → r.pkt a = p.pkt a) ∧
      (f1 = 0 → f2 = 0 → r = p) := by
  refine ⟨_, _, exchange_pkt p f1 e i t he hi ht hl hl2,
    exchange_pkt _ f2 e i t he hi ht hl hl2, ?_, ?_, ?_, ?_, ?_, ?_, ?_, ?_⟩
  · unfold ether_dst
    dsimp only
    simp (disch := omega) only [exchangedBuf_twice]
  · unfold ether_src
    dsimp only
    simp (disch := omega) only [exchangedBuf_twice]
  · unfold s_ip_src
    dsimp only
    simp (disch := omega) only [exchangedBuf_twice]
  · unfold s_ip_dst
    dsimp only
    simp (disch := omega) only [exchangedBuf_twice]
  · unfold th_sport ld16
    dsimp only
    simp (disch := omega) only [exchangedBuf_twice]
  · unfold th_dport ld16
    dsimp only
    simp (disch := omega) only [exchangedBuf_twice]
  · intro a ha
    exact exchangedBuf_twice p.pkt f1 f2 e i t hl hl2 a ha
  · intro h1 h2
    subst h1 h2
    dsimp only
    rw [exchangedBuf_twice_zero p.pkt e i t hl hl2]

/-- Witness for C7: the dissected 54-byte SYN frame, exchanged with SYN|ACK and
then with ACK, and exchanged twice without a flag. -/
theorem exchange_twice_restores_witness :
    (∃ q r, exchange_for_respond_pkt (afpacket_acquire skipEngine emptyPacket (some synFrame)).2 18
        = some q ∧ exchange_for_respond_pkt q 16 = some r ∧
      ether_dst r.pkt 0 = [0, 17, 34, 51, 68, 85] ∧ s_ip_src r.pkt 14 = [192, 168, 1, 10] ∧
      ntohs (th_dport r.pkt 34) = 80) ∧
    (∃ q, exchange_for_respond_pkt (afpacket_acquire skipEngine emptyPacket (some synFrame)).2 0
        = some q ∧
      exchange_for_respond_pkt q 0 =
        some (afpacket_acquire skipEngine emptyPacket (some synFrame)).2) := by
  constructor
  · obtain ⟨q, r, hq, hr, h1, -, h3, -, -, h6, -⟩ :=
      exchange_twice_restores (afpacket_acquire skipEngine emptyPacket (some synFrame)).2 18 16
        0 14 34 (by decide) (by decide) (by decide) (by decide) (by decide)
    refine ⟨q, r, hq, hr, ?_, ?_, ?_⟩
    · rw [h1]; decide
    · rw [h3]; decide
    · rw [h6]; decide
  · obtain ⟨q, r, hq, hr, -, -, -, -, -, -, -, h8⟩ :=
      exchange_twice_restores (afpacket_acquire skipEngine emptyPacket (some synFrame)).2 0 0
        0 14 34 (by decide) (by decide) (by decide) (by decide) (by decide)
    exact ⟨q, hq, by rw [hr, h8 rfl rfl]⟩

/-- The round trip inside one packet buffer: when the checksum helpers skip the
checksum field they compute, every frame that `afpacket_acquire` accepts is
accepted again after `exchange_for_respond_pkt` (any flag) and
`ReCalculateChecksum`, provided the crafted bytes are received back into the
same buffer; the addresses are the swapped ones and the checksum fields equal
the helpers' values over the lengths the code hands them (the TCP one over the
TCP header length). -/
theorem reacquire_own_buffer (E : Engine) (hE : E.SkipsField) (p : Packet) (l : List Byte)
    (flag : Byte) (hacc : (afpacket_acquire E p (some l)).1.isAccept = true) :
    ∃ q, exchange_for_respond_pkt (afpacket_acquire E p (some l)).2 flag = some q ∧
      (reacquire E (afpacket_acquire E p (some l)).2 flag l.length).map Prod.fst =
        some (Ret.fromlen l.length) ∧
      0 < l.length ∧
      Selected (ReCalculateChecksum E q).pkt ∧
      s_ip_src (ReCalculateChecksum E q).pkt 14 = s_ip_dst (recv p.pkt (some l)).2 14 ∧
      s_ip_dst (ReCalculateChecksum E q).pkt 14 = s_ip_src (recv p.pkt (some l)).2 14 ∧
      ip_csum (ReCalculateChecksum E q).pkt 14 =
        E.IPV4CalculateChecksum (view (ReCalculateChecksum E q).pkt 14)
          (IPV4_GET_RAW_HLEN (ReCalculateChecksum E q).pkt 14) % 65536 ∧
      th_sum (ReCalculateChecksum E q).pkt (14 + IPV4_GET_HLEN (ReCalculateChecksum E q).pkt 14) =
        E.TCPCalculateChecksum (view (ReCalculateChecksum E q).pkt 26)
          (view (ReCalculateChecksum E q).pkt
            (14 + IPV4_GET_HLEN (ReCalculateChecksum E q).pkt 14))
          (TCP_GET_HLEN (ReCalculateChecksum E q).pkt
            (14 + IPV4_GET_HLEN (ReCalculateChecksum E q).pkt 14)) % 65536 := by
  obtain ⟨hc1, hc2, hc3, hpl, hck⟩ := acquire_accept_checks E p (some l) hacc
  rw [acquire_accept_eq E p (some l) hacc]
  have hn : (recv p.pkt (some l)).1 = (l.length : Int) := rfl
  rw [hn] at hc1
  generalize (recv p.pkt (some l)).2 = m at *
  obtain ⟨c1, c2, c3, c4, c5, c6, c7, c8⟩ := hc1
  obtain ⟨t1, t2⟩ := hc2
  obtain ⟨s1, s2, s3⟩ := hc3
  dsimp only [dissected] at hpl hck
  rw [hpl] at hck
  unfold IPV4_HEADER_LEN at c4
  have hex := exchange_pkt (dissected p m) flag 0 14 (14 + IPV4_GET_HLEN m 14) rfl rfl rfl
    (by omega) (by omega)
  refine ⟨_, hex, ?_⟩
  unfold reacquire
  rw [hex]
  simp only [Option.map]
  obtain ⟨hout, hipv, htcv, -, -, -, hplr⟩ := recalc_spec E hE
    { dissected p m with pkt := exchangedBuf (dissected p m).pkt 0 14 (14 + IPV4_GET_HLEN m 14) flag }
    14 (14 + IPV4_GET_HLEN m 14) rfl rfl (by omega)
  generalize ReCalculateChecksum E
    { dissected p m with pkt := exchangedBuf (dissected p m).pkt 0 14 (14 + IPV4_GET_HLEN m 14) flag }
    = r at *
  dsimp only [dissected] at hout hplr htcv
  rw [hpl] at htcv
  have hY : ∀ a, 12 ≤ a → a < 24 → r.pkt a = m a := by
    intro a h1 h2
    rw [hout a (by omega) (by omega) (by omega) (by omega),
      ex_out _ _ _ _ _ _ (by omega) (by omega) (by omega) (by omega)]
  have hY12 : r.pkt (14 + IPV4_GET_HLEN m 14 + 12) = m (14 + IPV4_GET_HLEN m 14 + 12) := by
    rw [hout _ (by omega) (by omega) (by omega) (by omega),
      ex_out _ _ _ _ _ _ (by omega) (by omega) (by omega) (by omega)]
  have e_eth : ether_type r.pkt 0 = ether_type m 0 := by
    unfold ether_type
    exact ld16_congr _ _ _ (hY _ (by omega) (by omega)) (hY _ (by omega) (by omega))
  have e_ver : IP_GET_RAW_VER r.pkt 14 = IP_GET_RAW_VER m 14 := by
    unfold IP_GET_RAW_VER
    rw [hY _ (by omega) (by omega)]
  have e_raw : IPV4_GET_RAW_HLEN r.pkt 14 = IPV4_GET_RAW_HLEN m 14 := by
    unfold IPV4_GET_RAW_HLEN
    rw [hY _ (by omega) (by omega)]
  have e_H : IPV4_GET_HLEN r.pkt 14 = IPV4_GET_HLEN m 14 := by
    unfold IPV4_GET_HLEN
    rw [e_raw]
  have e_len : IPV4_GET_IPLEN r.pkt 14 = IPV4_GET_IPLEN m 14 := by
    unfold IPV4_GET_IPLEN
    rw [ld16_congr _ _ _ (hY _ (by omega) (by omega)) (hY _ (by omega) (by omega))]
  have e_proto : ip_proto r.pkt 14 = ip_proto m 14 := by
    unfold ip_proto
    rw [hY _ (by omega) (by omega)]
  have e_thl : TCP_GET_HLEN r.pkt (14 + IPV4_GET_HLEN m 14) =
      TCP_GET_HLEN m (14 + IPV4_GET_HLEN m 14) := by
    unfold TCP_GET_HLEN TCP_GET_OFFSET
    rw [hY12]
  have hX : ∀ a, a ≠ 24 → a ≠ 25 → a ≠ 14 + IPV4_GET_HLEN m 14 + 16 →
      a ≠ 14 + IPV4_GET_HLEN m 14 + 17 →
      r.pkt a = exchangedBuf m 0 14 (14 + IPV4_GET_HLEN m 14) flag a := by
    intro a h1 h2 h3 h4
    exact hout a (by omega) (by omega) h3 h4
  have e_src : s_ip_src r.pkt 14 = s_ip_dst m 14 := by
    unfold s_ip_src s_ip_dst
    rw [hX _ (by omega) (by omega) (by omega) (by omega),
      hX _ (by omega) (by omega) (by omega) (by omega),
      hX _ (by omega) (by omega) (by omega) (by omega),
      hX _ (by omega) (by omega) (by omega) (by omega)]
    simp (disch := omega) only [ex_ip_lo]
  have e_dst : s_ip_dst r.pkt 14 = s_ip_src m 14 := by
    unfold s_ip_src s_ip_dst
    rw [hX _ (by omega) (by omega) (by omega) (by omega),
      hX _ (by omega) (by omega) (by omega) (by omega),
      hX _ (by omega) (by omega) (by omega) (by omega),
      hX _ (by omega) (by omega) (by omega) (by omega)]
    simp (disch := omega) only [ex_ip_hi]
  have e_sport : th_sport r.pkt (14 + IPV4_GET_HLEN m 14) =
      th_dport m (14 + IPV4_GET_HLEN m 14) := by
    unfold th_sport th_dport ld16
    rw [hX _ (by omega) (by omega) (by omega) (by omega),
      hX _ (by omega) (by omega) (by omega) (by omega)]
    simp (disch := omega) only [ex_port_lo]
  have e_dport : th_dport r.pkt (14 + IPV4_GET_HLEN m 14) =
      th_sport m (14 + IPV4_GET_HLEN m 14) := by
    unfold th_sport th_dport ld16
    rw [hX _ (by omega) (by omega) (by omega) (by omega),
      hX _ (by omega) (by omega) (by omega) (by omega)]
    simp (disch := omega) only [ex_port_hi]
    rfl
  have hsel : Selected r.pkt := by
    unfold Selected
    rw [e_H, e_sport, e_dport, e_src, e_dst]
    exact ⟨s1.symm, s3, s2⟩
  have hacc2 := acquire_accept_of_checks E r (some (frameOf r.pkt l.length)) l.length r.pkt
    (recv_frameOf r.pkt l.length)
    (by
      unfold PassesIPv4Checks
      rw [e_eth, e_ver, e_H, e_len, hipv]
      exact ⟨c1, c2, c3, c4, c5, c6, c7, rfl⟩)
    (by
      unfold PassesTcpHeaderChecks
      rw [e_proto, e_H, e_len, e_thl]
      exact ⟨t1, t2⟩)
    hsel
    (by rw [e_H, e_len, e_thl]; exact hpl)
    (by rw [e_H]; exact htcv)
  rw [hacc2]
  refine ⟨rfl, by omega, hsel, e_src, e_dst, hipv, ?_⟩
  rw [e_H]
  rw [Nat.zero_add] at htcv
  exact htcv

/-- The accepted 54-byte SYN frame, answered with SYN|ACK and received back
into its own buffer, is accepted again. -/
theorem reacquire_own_buffer_syn :
    ∃ q, exchange_for_respond_pkt (afpacket_acquire skipEngine emptyPacket (some synFrame)).2 18 =
        some q ∧
      (reacquire skipEngine (afpacket_acquire skipEngine emptyPacket (some synFrame)).2 18
        synFrame.length).map Prod.fst = some (Ret.fromlen synFrame.length) := by
  obtain ⟨q, hq, h, -⟩ :=
    reacquire_own_buffer skipEngine skipEngine_skips emptyPacket synFrame 18 (by decide)
  exact ⟨q, hq, h⟩

/-- The crafted checksum of a frame accepted through the 8-bit segment length:
`headerSumFrame` (276-byte segment, TCP checksum field taken over the 20 header
bytes) is accepted, and after `exchange_for_respond_pkt` with SYN|ACK and
`ReCalculateChecksum` its TCP checksum field is the helper's value over 20
bytes, 51593, not the value over the 276-byte segment, 51592. -/
theorem crafted_checksum_over_header_only :
    (afpacket_acquire skipEngine emptyPacket (some headerSumFrame)).1 = Ret.fromlen 310 ∧
    (exchange_for_respond_pkt
        (afpacket_acquire skipEngine emptyPacket (some headerSumFrame)).2 18).map
      (fun q =>
        (th_sum (ReCalculateChecksum skipEngine q).pkt 34,
          skipEngine.TCPCalculateChecksum (view (ReCalculateChecksum skipEngine q).pkt 26)
            (view (ReCalculateChecksum skipEngine q).pkt 34) 20,
          skipEngine.TCPCalculateChecksum (view (ReCalculateChecksum skipEngine q).pkt 26)
            (view (ReCalculateChecksum skipEngine q).pkt 34) 276)) =
      some (51593, 51593, 51592) := by
  decide

/-- C5, as the code behaves: after the 54-byte SYN frame, a 40-byte frame (its
first 40 bytes) is accepted with receive count 40, its TCP header bytes 40 to
53 being the stale bytes of the earlier frame. The response crafted from it
with SYN|ACK (`exchange_for_respond_pkt`, then `ReCalculateChecksum`) is
accepted again only when its 40 bytes are received back into the same buffer:
received into a packet with a zeroed buffer they are returned as `PKT_PASS`,
received into a packet that last held the frame to port 8080 as `PKT_ERROR`. -/
theorem crafted_short_capture_not_reaccepted :
    shortCapture.1 = Ret.fromlen 40 ∧
    (reacquire skipEngine shortCapture.2 18 40).map Prod.fst = some (Ret.fromlen 40) ∧
    (reacquireInto skipEngine shortCapture.2 18 40 emptyPacket).map Prod.fst =
      some Ret.PKT_PASS ∧
    (reacquireInto skipEngine shortCapture.2 18 40
      (afpacket_acquire skipEngine emptyPacket (some otherPortFrame)).2).map Prod.fst =
      some Ret.PKT_ERROR := by
  decide

end AfPacket
